import Mathlib

/-!
Verification development for the SDFGrid quadrant-partitioned dense/sparse
field storage engine (files SDFGridLayers.js, SDFGridCore.js,
SDFGridQuadrants.js, SDFGridNucleus.js, SDFGridUtil.js).

The JavaScript source is shallowly embedded: machine floats whose uses here
are exact (copies, additions from zero, integer-valued layout arithmetic)
are modelled by rationals; Float32Array buffers are modelled as total
functions from flat indices to rationals; IndexedDB stores are modelled as
explicit state fields, and the asynchronous methods (which suspend only at
store calls, single cooperative task) as pure state-passing functions.
-/

set_option autoImplicit false

namespace SDFGrid

/-- Dense canvas width, SDFGridConstants.js: `DENSE_W = 1024`. -/
def DENSE_W : ℕ := 1024

/-- Dense canvas height, SDFGridConstants.js: `DENSE_H = 1024`. -/
def DENSE_H : ℕ := 1024

/-- SDFGridConstants.js: `DEFAULT_QUADRANT_COUNT = 16`. -/
def DEFAULT_QUADRANT_COUNT : ℕ := 16

/-- `Math.ceil(a/b)` for natural `a`, positive natural `b`. -/
def cdiv (a b : ℕ) : ℕ := (a + b - 1) / b

/-- `Math.ceil(Math.sqrt n)` for a natural number `n`.  For `n ≤ 2^20` the
double-precision square root of a non-square integer is never an integer,
so the float computation agrees with this exact version. -/
def ceilSqrt (n : ℕ) : ℕ :=
  if Nat.sqrt n * Nat.sqrt n = n then Nat.sqrt n else Nat.sqrt n + 1

/-- Derived quadrant layout, SDFGridLayers.js `quadrantSpec` (lines 6-13):
`cols = ceil(sqrt count)`, `rows = ceil(count/cols)`, `qW = ceil(W/cols)`,
`qH = ceil(H/rows)`. -/
structure QuadSpec where
  count : ℕ
  cols : ℕ
  rows : ℕ
  qW : ℕ
  qH : ℕ
deriving DecidableEq, Repr

def quadrantSpec (count : ℕ) : QuadSpec :=
  { count := count
    cols := ceilSqrt count
    rows := cdiv count (ceilSqrt count)
    qW := cdiv DENSE_W (ceilSqrt count)
    qH := cdiv DENSE_H (cdiv count (ceilSqrt count)) }

/-- Rectangular pixel region of quadrant `qi`, SDFGridLayers.js
`quadrantRange` (lines 15-24): `col = qi % cols`, `row = qi / cols`,
x range `[col*qW, min(col*qW + qW, W))`, y range likewise. -/
structure QuadRange where
  xStart : ℕ
  xEnd : ℕ
  yStart : ℕ
  yEnd : ℕ
deriving DecidableEq, Repr

def quadrantRange (count qi : ℕ) : QuadRange :=
  { xStart := qi % (quadrantSpec count).cols * (quadrantSpec count).qW
    xEnd := min (qi % (quadrantSpec count).cols * (quadrantSpec count).qW
      + (quadrantSpec count).qW) DENSE_W
    yStart := qi / (quadrantSpec count).cols * (quadrantSpec count).qH
    yEnd := min (qi / (quadrantSpec count).cols * (quadrantSpec count).qH
      + (quadrantSpec count).qH) DENSE_H }

/-- Pixel `(px, py)` lies in the rectangular region of quadrant `qi`. -/
def inQuadRegion (count qi px py : ℕ) : Prop :=
  let r := quadrantRange count qi
  r.xStart ≤ px ∧ px < r.xEnd ∧ r.yStart ≤ py ∧ py < r.yEnd

instance (count qi px py : ℕ) : Decidable (inQuadRegion count qi px py) := by
  unfold inQuadRegion; exact inferInstance

/-- Index of the quadrant region containing pixel `(px, py)`:
`(py / qH) * cols + px / qW` (row-major).  This is the unclamped core of
`quadrantIndexFromDense`. -/
def pixelQuadIndex (count px py : ℕ) : ℕ :=
  py / (quadrantSpec count).qH * (quadrantSpec count).cols + px / (quadrantSpec count).qW

/-- SDFGridLayers.js `quadrantIndexFromDense` (lines 26-31), including the
`Math.min(cols - 1, ...)` clamps applied by the source. -/
def quadrantIndexFromDense (count bx byPix : ℕ) : ℕ :=
  let s := quadrantSpec count
  let col := min (s.cols - 1) (bx / s.qW)
  let row := min (s.rows - 1) (byPix / s.qH)
  row * s.cols + col

/-- SDFGridUtil.js `arraysEqual` (lines 19-22): same length and
elementwise equality (order-sensitive). -/
def arraysEqual (a b : List String) : Bool :=
  a.length == b.length && (a.zip b).all fun p => p.1 == p.2

/-- Overlay schema record (SDFGridCore.js line 83): version id and the
ordered field-name sequence.  The `index` member of the source is derived
from `fieldNames` by `buildIndex` below, never stored independently. -/
structure Schema where
  id : ℕ
  fieldNames : List String
deriving DecidableEq, Repr

/-- `Map.prototype.set` on an association list: an existing key keeps its
insertion position and takes the new value, a fresh key is appended. -/
def mapSet (m : List (String × ℕ)) (k : String) (v : ℕ) : List (String × ℕ) :=
  if m.any fun p => p.1 == k then
    m.map fun p => if p.1 == k then (p.1, v) else p
  else m ++ [(k, v)]

/-- `new Map(fields.map((n,i)=>[n,i]))`: the name-to-channel index of a
schema, as the association list a JS `Map` iterates in insertion order. -/
def buildIndex (fields : List String) : List (String × ℕ) :=
  fields.enum.foldl (fun m p => mapSet m p.2 p.1) []

/-- `schema.index.get(name)` (JS `Map.get`). -/
def indexGet (fields : List String) (name : String) : Option ℕ :=
  (buildIndex fields).lookup name

/-- The field name occupying channel `fi` of the index, if any.  The index
assigns distinct channels to distinct names (each name maps to one list
position), so `find?` returns the unique such entry. -/
def channelName (fields : List String) (fi : ℕ) : Option String :=
  ((buildIndex fields).find? fun p => p.2 == fi).map Prod.fst

/-- SDFGridCore.js `evolveSchema` (lines 136-143).  The absent/empty input
case and the `arraysEqual` case return the schema unchanged; otherwise the
id is incremented and the field list replaced (the index is re-derived
from the new list by `buildIndex`). -/
def evolveSchema (s : Schema) (newFieldNames : List String) : Schema :=
  if newFieldNames.isEmpty then s
  else if arraysEqual newFieldNames s.fieldNames then s
  else { id := s.id + 1, fieldNames := newFieldNames }

/-- SDFGridQuadrants.js `quantizePareto` (lines 5-16): sort the entries of
the environment record by descending absolute value (JS `sort` is stable;
`insertionSort` with this relation places earlier entries before
equal-magnitude later ones, matching that) and keep the first
`Math.ceil(n * 0.2)` of them.  For every `n` in range the float product
`n * 0.2` rounds so that its ceiling is `⌈n/5⌉`. -/
def quantizePareto (env : List (String × ℚ)) : List (String × ℚ) :=
  if env.isEmpty then []
  else (env.insertionSort fun a b => |b.2| ≤ |a.2|).take (cdiv env.length 5)

/-- Zero template produced by `createSparseQuadrants`: one sparse
field-map per quadrant. -/
structure Template where
  quadrants : List (List (String × ℚ))
deriving DecidableEq, Repr

/-- SDFGridQuadrants.js `createSparseQuadrants` (lines 21-31): quadrant
`i` takes the parsed expression `envExprs[i] ?? envExprs[0] ?? {}` and
maps each of its keys to `0`.  Expressions arrive already parsed
(`parseEnvExpression` is the identity on object-valued expressions). -/
def createSparseQuadrants (count : ℕ) (envExprs : List (List (String × ℚ))) : Template :=
  ⟨(List.range count).map fun i =>
    (envExprs.getD i (envExprs.getD 0 [])).map fun p => (p.1, (0 : ℚ))⟩

/-- `Math.hypot(x, y)`. -/
noncomputable def hypotR (x y : ℝ) : ℝ := Real.sqrt (x * x + y * y)

/-- The four center candidates of SDFGridNucleus.js line 4:
`[(cx-1,cy-1), (cx-1,cy), (cx,cy-1), (cx,cy)]` with `cx = w >> 1`,
`cy = h >> 1`. -/
def nucleusCandidates (w h : ℕ) : List (ℤ × ℤ) :=
  [((w / 2 : ℕ) - 1, (h / 2 : ℕ) - 1), ((w / 2 : ℕ) - 1, (h / 2 : ℕ)),
   ((w / 2 : ℕ), (h / 2 : ℕ) - 1), ((w / 2 : ℕ), (h / 2 : ℕ))]

/-- Score of one candidate in SDFGridNucleus.js lines 5-9: dot product of
the candidate-center offset from the pivot, divided by `hypot(ox,oy) || 1`,
with the direction divided by `hypot(dx,dy) || 1`. -/
noncomputable def candidateScore (w h : ℕ) (dir : ℝ × ℝ) (c : ℤ × ℤ) : ℝ :=
  let pivotX : ℝ := ((w : ℝ) - 1) / 2
  let pivotY : ℝ := ((h : ℝ) - 1) / 2
  let dlen0 := hypotR dir.1 dir.2
  let dlen := if dlen0 = 0 then 1 else dlen0
  let dx := dir.1 / dlen
  let dy := dir.2 / dlen
  let ox := ((c.1 : ℝ) + 0.5) - pivotX
  let oy := ((c.2 : ℝ) + 0.5) - pivotY
  let olen0 := hypotR ox oy
  let olen := if olen0 = 0 then 1 else olen0
  (ox / olen) * dx + (oy / olen) * dy

/-- One step of the selection loop in SDFGridNucleus.js lines 6-11:
`score` starts at `-Infinity` (modelled as `none`); a candidate replaces
the best exactly when its score is strictly greater. -/
noncomputable def pickStep (acc : (ℤ × ℤ) × Option ℝ) (p : (ℤ × ℤ) × ℝ) :
    (ℤ × ℤ) × Option ℝ :=
  match acc.2 with
  | none => (p.1, some p.2)
  | some sc => if sc < p.2 then (p.1, some p.2) else acc

/-- SDFGridNucleus.js `pickNucleusByDirection` (lines 2-13). -/
noncomputable def pickNucleusByDirection (w h : ℕ) (dir : ℝ × ℝ) : ℤ × ℤ :=
  let C := nucleusCandidates w h
  let scored := C.map fun c => (c, candidateScore w h dir c)
  (scored.foldl pickStep (C.headD (0, 0), none)).1

/-- A dense layer buffer: a `Float32Array` of length `W*H*F` modelled as a
total map from flat indices to exact values. -/
abbrev Buf := ℕ → ℚ

/-- Flat index of channel `fi` of pixel `(xPix, yPix)` in a buffer with
`F` channels, SDFGridLayers.js `_denseIdx` (lines 111-113). -/
def denseIdx (F xPix yPix fi : ℕ) : ℕ := ((yPix * DENSE_W) + xPix) * F + fi

/-- A freshly allocated `Float32Array` (all zeros). -/
def zeroBuf : Buf := fun _ => 0

/-- Pointwise functional update, the effect of `arr[i] = v`. -/
def updBuf (arr : Buf) (i : ℕ) (v : ℚ) : Buf :=
  fun j => if j = i then v else arr j

/-- Grid instance state: the fields of the `SDFGrid` object
(SDFGridCore.js constructor) and the contents of the IndexedDB stores
that the layer engine touches, as one record.  `db = false` is the
memory-only mode (`!this._db`).  Store keys: `lmetaStore` is
`overlay_layers_meta` keyed by layer, `layerQStore` is the quadrant store
keyed by `(layer, quadrantIndex)`, `basezStore` is `base_zero` keyed by
schema id. -/
structure GridState where
  layerCache : ℤ → Option Buf
  db : Bool
  disposed : Bool
  lmetaStore : ℤ → Option (ℕ × List String)
  layerQStore : ℤ → ℕ → Option Buf
  basezStore : ℕ → Option Template
  schema : Schema
  quadrantCount : ℕ
  envExpressions : List (List (String × ℚ))
  dataTable : List ((ℤ × ℤ × ℤ) × List (String × ℚ))
  cellsX : ℕ
  cellsY : ℕ
  effectiveCellsZ : ℕ
  nuclei : ℤ → Option (ℤ × ℤ)
  dirtyLayers : List (ℤ × List ℕ)
  flushPending : Bool

/-- `this.quadrantCount || DEFAULT_QUADRANT_COUNT`. -/
def effQuadrantCount (s : GridState) : ℕ :=
  if s.quadrantCount = 0 then DEFAULT_QUADRANT_COUNT else s.quadrantCount

/-- SDFGridLayers.js `_ensureZeroTemplate` (lines 66-76): without a
gateway build the template directly; with one, look up `base_zero` under
the current schema id and create-and-persist on miss. -/
def ensureZeroTemplate (s : GridState) : Template × GridState :=
  let count := effQuadrantCount s
  if s.db = false then (createSparseQuadrants count s.envExpressions, s)
  else
    match s.basezStore s.schema.id with
    | some tmpl => (tmpl, s)
    | none =>
      let tmpl := createSparseQuadrants count s.envExpressions
      (tmpl, { s with basezStore := fun k =>
        if k = s.schema.id then some tmpl else s.basezStore k })

/-- SDFGridCore.js `getNucleus` (lines 188-193): clamp `z` into the layer
range, return the stored nucleus when present, else the grid center cell
`((cellsX >> 1) - 1, (cellsY >> 1) - 1)`. -/
def getNucleus (s : GridState) (z : ℤ) : ℤ × ℤ :=
  let zi := min (max z 0) ((s.effectiveCellsZ : ℤ) - 1)
  match s.nuclei zi with
  | some n => n
  | none => (((s.cellsX / 2 : ℕ) : ℤ) - 1, ((s.cellsY / 2 : ℕ) : ℤ) - 1)

/-- `Math.round` on an exactly represented value: `⌊q + 1/2⌋`. -/
def jsRound (q : ℚ) : ℤ := ⌊q + 1 / 2⌋

/-- SDFGridLayers.js `_mapCellToDense` (lines 187-198): offset from the
layer nucleus, scaled by `denseDim / max(1, cellsDim)`, rounded, added to
the fixed center `(denseDim >> 1) - 1` and clamped to the canvas. -/
def mapCellToDense (s : GridState) (z x y : ℤ) : ℕ × ℕ :=
  let nuc := getNucleus s z
  let dx : ℤ := x - nuc.1
  let dy : ℤ := y - nuc.2
  let sx : ℚ := (DENSE_W : ℚ) / (max 1 s.cellsX : ℕ)
  let sy : ℚ := (DENSE_H : ℚ) / (max 1 s.cellsY : ℕ)
  let baseCx : ℤ := ((DENSE_W / 2 : ℕ) : ℤ) - 1
  let baseCy : ℤ := ((DENSE_H / 2 : ℕ) : ℤ) - 1
  let bx := max 0 (min ((DENSE_W : ℤ) - 1) (baseCx + jsRound ((dx : ℚ) * sx)))
  let byPix := max 0 (min ((DENSE_H : ℤ) - 1) (baseCy + jsRound ((dy : ℚ) * sy)))
  (bx.toNat, byPix.toNat)

/-- Position `p` taken by channel `fi` of canvas pixel `(x, y)` inside the
packed buffer of quadrant `qi`: the sequential counter of the
`blitQuadrantIntoDense` / `extractQuadrantBuffer` loops (row-major over
the region, channel-interleaved). -/
def quadLocalIdx (count F qi x y fi : ℕ) : ℕ :=
  let r := quadrantRange count qi
  ((y - r.yStart) * (r.xEnd - r.xStart) + (x - r.xStart)) * F + fi

/-- SDFGridLayers.js `extractQuadrantBuffer` (lines 45-57), pointwise:
entry `p` of the packed output decodes as `fi = p % F`,
`lx = (p / F) % w`, `ly = (p / F) / w` and reads the dense source at the
corresponding region pixel.  Positions outside the allocated length are
the zero fill of a fresh `Float32Array`. -/
def extractQuadrantBuffer (count F : ℕ) (src : Buf) (qi : ℕ) : Buf :=
  fun p =>
    let r := quadrantRange count qi
    let w := r.xEnd - r.xStart
    let h := r.yEnd - r.yStart
    if F = 0 then 0
    else if p < w * h * F then
      let fi := p % F
      let rest := p / F
      src (denseIdx F (r.xStart + rest % w) (r.yStart + rest / w) fi)
    else 0

/-- The loop `for qi in 0..count: if stored then blitQuadrantIntoDense`,
pointwise: a dense index decodes as channel `fi = i % F` of pixel
`(x, y) = ((i/F) % W, (i/F) / W)`; that pixel lies in the region of
exactly `pixelQuadIndex count x y` (theorem `claim_C1_amended` below), so
the blits write it from that quadrant when a buffer for it is stored and
leave `base` otherwise. -/
def overlayQuadrants (count F : ℕ) (getQ : ℕ → Option Buf) (base : Buf) : Buf :=
  fun i =>
    if F = 0 then base i
    else
      let fi := i % F
      let pix := i / F
      let x := pix % DENSE_W
      let y := pix / DENSE_W
      if y < DENSE_H then
        let qi := pixelQuadIndex count x y
        if qi < count then
          match getQ qi with
          | some qb => qb (quadLocalIdx count F qi x y fi)
          | none => base i
        else base i
      else base i

/-- Final value left at channel `fi` by the inner loop of
`denseFromQuadrants`: the last template entry whose schema channel is
`fi` wins, a channel no entry maps to keeps the zero fill. -/
def quadChannelValue (quad : List (String × ℚ)) (fields : List String) (fi : ℕ) : ℚ :=
  match quad.reverse.find? fun p => indexGet fields p.1 == some fi with
  | some p => p.2
  | none => 0

/-- SDFGridQuadrants.js `denseFromQuadrants` (lines 34-69), pointwise:
paint each quadrant region of a zero `Float32Array` with the (schema
indexed) entries of that quadrant of the template. -/
def denseFromQuadrants (tmpl : Template) (schema : Schema) : Buf :=
  fun i =>
    let F := schema.fieldNames.length
    let quads := tmpl.quadrants
    if F = 0 then 0
    else if quads.length = 0 then 0
    else
      let fi := i % F
      let pix := i / F
      let x := pix % DENSE_W
      let y := pix / DENSE_W
      if y < DENSE_H then
        match quads.get? (pixelQuadIndex quads.length x y) with
        | some quad => quadChannelValue quad schema.fieldNames fi
        | none => 0
      else 0

/-- `src[name] || 0` for channel `fi` of a sparse record. -/
def sparseEntryValue (fields : List String) (rec : List (String × ℚ)) (fi : ℕ) : ℚ :=
  match fields.get? fi with
  | some name => (rec.lookup name).getD 0
  | none => 0

/-- Effect of one `dataTable` entry inside
SDFGridLayers.js `_applySparseIntoDense` (lines 200-218): entries of
other layers or out-of-range cells are skipped; otherwise the cell maps
to a pixel and each non-zero field value overwrites that channel. -/
def applyEntry (s : GridState) (z : ℤ) (arr : Buf)
    (e : (ℤ × ℤ × ℤ) × List (String × ℚ)) : Buf :=
  let F := s.schema.fieldNames.length
  let cx := e.1.1
  let cy := e.1.2.1
  let cz := e.1.2.2
  if cz ≠ z then arr
  else if cx < 0 ∨ (s.cellsX : ℤ) ≤ cx ∨ cy < 0 ∨ (s.cellsY : ℤ) ≤ cy then arr
  else
    let p := mapCellToDense s z cx cy
    let base := denseIdx F p.1 p.2 0
    fun i =>
      if base ≤ i ∧ i < base + F ∧ sparseEntryValue s.schema.fieldNames e.2 (i - base) ≠ 0
      then sparseEntryValue s.schema.fieldNames e.2 (i - base)
      else arr i

/-- SDFGridLayers.js `_applySparseIntoDense` (lines 200-218): fold the
per-entry effect over the table in iteration order. -/
def applySparseIntoDense (s : GridState) (z : ℤ) (arr : Buf) : Buf :=
  s.dataTable.foldl (applyEntry s z) arr

/-- The channel-reindexing double loop of `_ensureDenseLayer`
(SDFGridLayers.js lines 166-178), pointwise: for each pixel, the channel
holding name `name` in the current schema takes the stored value of
`name` from the old layout when the old index has it (`fiOld != null`),
and keeps the template base otherwise.  Distinct index entries write
distinct channels, so the last-write of the loop is the unique write. -/
def reindexChannels (oldFields newFields : List String) (arrOld base : Buf) : Buf :=
  fun i =>
    let Fnew := newFields.length
    let Fold := oldFields.length
    if Fnew = 0 then base i
    else
      let fi := i % Fnew
      let pix := i / Fnew
      if pix < DENSE_W * DENSE_H then
        match channelName newFields fi with
        | some name =>
          match indexGet oldFields name with
          | some fiOld => arrOld (pix * Fold + fiOld)
          | none => base i
        | none => base i
      else base i

/-- `this._layerCache.set(z, arr)`. -/
def cacheInsert (s : GridState) (z : ℤ) (arr : Buf) : GridState :=
  { s with layerCache := fun k => if k = z then some arr else s.layerCache k }

/-- The persistence loop `for qi in 0..count: idbPut(layer, (z, qi),
extractQuadrantBuffer(arr, qi))` applied to one layer key of the
quadrant store. -/
def putQuadrants (store : ℕ → Option Buf) (count F : ℕ) (arr : Buf) :
    ℕ → Option Buf :=
  fun qi => if qi < count then some (extractQuadrantBuffer count F arr qi) else store qi

/-- `idbPut(lmeta, z, { sid: schema.id, fields: schema.fieldNames })`. -/
def putLmeta (s : GridState) (z : ℤ) : GridState :=
  { s with lmetaStore := fun k =>
    if k = z then some (s.schema.id, s.schema.fieldNames) else s.lmetaStore k }

/-- Persist all `count` quadrant slices of `arr` under layer `z`. -/
def putLayerQuadrants (s : GridState) (z : ℤ) (count F : ℕ) (arr : Buf) : GridState :=
  { s with layerQStore := fun k =>
    if k = z then putQuadrants (s.layerQStore z) count F arr else s.layerQStore k }

/-- `buffers.every(b => !b)` is false and each present buffer is blitted;
this flag is `allPresent` of SDFGridLayers.js lines 135-143. -/
def allQuadrantsPresent (getQ : ℕ → Option Buf) (count : ℕ) : Bool :=
  (List.range count).all fun qi => (getQ qi).isSome

/-- SDFGridLayers.js `_ensureDenseLayer` (lines 115-185).  Branches: a
cache hit returns the resident buffer; without a gateway a zero buffer is
allocated and cached; with matching stored metadata the template base is
overlaid with the stored quadrant slices, and missing slices trigger the
sparse projection plus re-persistence; otherwise the stored layout is
assembled and reindexed into the current schema, persisted under the new
metadata, and cached. -/
def ensureDenseLayer (s : GridState) (z : ℤ) : Buf × GridState :=
  match s.layerCache z with
  | some arr => (arr, s)
  | none =>
    if s.db = false then
      (zeroBuf, cacheInsert s z zeroBuf)
    else
      let lmeta := s.lmetaStore z
      let curSid := (lmeta.map Prod.fst).getD 0
      let curList := (lmeta.map Prod.snd).getD []
      let ts := ensureZeroTemplate s
      let tmpl := ts.1
      let s1 := ts.2
      let Fnew := s.schema.fieldNames.length
      let qCount := effQuadrantCount s
      if curSid == s.schema.id && arraysEqual curList s.schema.fieldNames then
        let base := denseFromQuadrants tmpl s.schema
        let arr := overlayQuadrants qCount Fnew (s.layerQStore z) base
        if allQuadrantsPresent (s.layerQStore z) qCount then
          (arr, cacheInsert s1 z arr)
        else
          let arr2 := applySparseIntoDense s1 z arr
          let s2 := putLmeta (putLayerQuadrants s1 z qCount Fnew arr2) z
          (arr2, cacheInsert s2 z arr2)
      else
        let oldF := curList.length
        let arrOld := overlayQuadrants qCount oldF (s.layerQStore z) zeroBuf
        let base := denseFromQuadrants tmpl s.schema
        let arr := reindexChannels curList s.schema.fieldNames arrOld base
        let s2 := putLmeta (putLayerQuadrants s1 z qCount Fnew arr) z
        (arr, cacheInsert s2 z arr)

/-- `set.add(qi)` on the per-layer dirty map: a layer already present
keeps its position and gains the index if new, a fresh layer is appended
with a singleton set.  Set insertion order is modelled by list order. -/
def dirtyAdd (d : List (ℤ × List ℕ)) (z : ℤ) (qi : ℕ) : List (ℤ × List ℕ) :=
  if d.any fun p => p.1 == z then
    d.map fun p => if p.1 == z then (p.1, if qi ∈ p.2 then p.2 else p.2 ++ [qi]) else p
  else d ++ [(z, [qi])]

/-- SDFGridLayers.js `markDirty` (lines 59-64). -/
def markDirty (s : GridState) (z : ℤ) (bx byPix : ℕ) : GridState :=
  let qi := quadrantIndexFromDense (effQuadrantCount s) bx byPix
  { s with dirtyLayers := dirtyAdd s.dirtyLayers z qi }

/-- `if (!this._flushHandle) this._flushHandle = setTimeout(...)`. -/
def scheduleFlush (s : GridState) : GridState :=
  if s.flushPending then s else { s with flushPending := true }

/-- SDFGridLayers.js `setDenseFromCell` (lines 220-233): materialize the
layer, map the cell, overwrite each named channel the schema has, mark
the quadrant dirty, schedule a flush.  The per-field display maxima the
source also updates are observed only by the visualization layer and are
not modelled. -/
def setDenseFromCell (s : GridState) (z x y : ℤ) (values : List (String × ℚ)) : GridState :=
  let es := ensureDenseLayer s z
  let s1 := es.2
  let F := s1.schema.fieldNames.length
  let p := mapCellToDense s1 z x y
  let base := denseIdx F p.1 p.2 0
  let arr2 := values.foldl (fun a nv =>
    match indexGet s1.schema.fieldNames nv.1 with
    | some fi => updBuf a (base + fi) nv.2
    | none => a) es.1
  scheduleFlush (markDirty (cacheInsert s1 z arr2) z p.1 p.2)

/-- SDFGridLayers.js `addDenseFromCell` (lines 235-249): as
`setDenseFromCell` but each present channel accumulates
`(arr[base+fi] || 0) + inc`. -/
def addDenseFromCell (s : GridState) (z x y : ℤ) (values : List (String × ℚ)) : GridState :=
  let es := ensureDenseLayer s z
  let s1 := es.2
  let F := s1.schema.fieldNames.length
  let p := mapCellToDense s1 z x y
  let base := denseIdx F p.1 p.2 0
  let arr2 := values.foldl (fun a nv =>
    match indexGet s1.schema.fieldNames nv.1 with
    | some fi => updBuf a (base + fi) (a (base + fi) + nv.2)
    | none => a) es.1
  scheduleFlush (markDirty (cacheInsert s1 z arr2) z p.1 p.2)

/-- SDFGridLayers.js `sampleDenseForCell` (lines 251-257): a field the
current schema lacks reads `0` before any materialization; otherwise the
layer is materialized and the mapped pixel channel returned. -/
def sampleDenseForCell (s : GridState) (z x y : ℤ) (field : String) : ℚ × GridState :=
  match indexGet s.schema.fieldNames field with
  | none => (0, s)
  | some fi =>
    let es := ensureDenseLayer s z
    let p := mapCellToDense es.2 z x y
    (es.1 (denseIdx s.schema.fieldNames.length p.1 p.2 fi), es.2)

/-- `quad.byteLength` of the `Float32Array` slice of quadrant `qi`:
region width times height times channel count times four bytes. -/
def quadByteLength (count F qi : ℕ) : ℕ :=
  let r := quadrantRange count qi
  (r.xEnd - r.xStart) * (r.yEnd - r.yStart) * F * 4

/-- The `for (attempt = 0; attempt < retries; attempt++)` loop of
`_storeQuadrantWithVerify` (SDFGridLayers.js lines 605-611): `beh k` is
the byte length the read-back observes for the write of attempt `k`;
the loop stops at the first attempt whose stored length matches. -/
def storeVerifyLoop (beh : ℕ → ℕ) (quadBytes attempt : ℕ) : ℕ → Bool
  | 0 => false
  | remaining + 1 =>
    if beh attempt = quadBytes then true
    else storeVerifyLoop beh quadBytes (attempt + 1) remaining

/-- SDFGridLayers.js `_storeQuadrantWithVerify` (lines 599-615): `true`
is a normal return, `false` is the terminal `throw` after `retries`
failed verifications; with no gateway the call is a no-op success. -/
def storeQuadrantWithVerify (db : Bool) (beh : ℕ → ℕ) (quadBytes retries : ℕ) : Bool :=
  if db = false then true else storeVerifyLoop beh quadBytes 0 retries

/-- Gateway behavior during a flush: the byte length read back for layer
`z`, quadrant `qi`, attempt `k`. -/
abbrev FlushBeh := ℤ → ℕ → ℕ → ℕ

/-- The `for (const qi of set)` loop of `_flushDirtyLayers`
(SDFGridLayers.js lines 832-835): verify-store each dirty quadrant slice
in order; `none` models the propagated terminal throw. -/
def flushQuadList (beh : FlushBeh) (count F : ℕ) (z : ℤ) (arr : Buf)
    (store : ℕ → Option Buf) : List ℕ → Option (ℕ → Option Buf)
  | [] => some store
  | qi :: rest =>
    if storeQuadrantWithVerify true (beh z qi) (quadByteLength count F qi) 3 then
      flushQuadList beh count F z arr
        (fun k => if k = qi then some (extractQuadrantBuffer count F arr qi) else store k)
        rest
    else none

/-- The per-layer pass of `_flushDirtyLayers` (SDFGridLayers.js lines
827-837): a layer with no resident buffer is skipped; otherwise its
quadrants are verified-stored and the layer metadata re-persisted. -/
def flushEntries (beh : FlushBeh) (count F : ℕ) :
    List (ℤ × List ℕ) → GridState → Bool × GridState
  | [], st => (true, st)
  | (z, qis) :: rest, st =>
    match st.layerCache z with
    | none => flushEntries beh count F rest st
    | some arr =>
      match flushQuadList beh count F z arr (st.layerQStore z) qis with
      | none => (false, st)
      | some q2 =>
        flushEntries beh count F rest
          (putLmeta { st with layerQStore := fun k =>
            if k = z then q2 else st.layerQStore k } z)

/-- SDFGridLayers.js `_flushDirtyLayers` (lines 821-839): early return
when disposed, gatewayless, or clean; otherwise swap the dirty set out
and persist every `(z, quadrant)` pair through the verify loop.  The
first component is `false` exactly when some quadrant raised the
terminal persistence error (in which case the pending-flush handle is
never cleared, as the rejection skips the final reset). -/
def flushDirtyLayers (s : GridState) (beh : FlushBeh) : Bool × GridState :=
  if s.disposed then (true, { s with flushPending := false })
  else if s.db = false || s.dirtyLayers.isEmpty then
    (true, { s with flushPending := false })
  else
    let entries := s.dirtyLayers
    let F := s.schema.fieldNames.length
    let count := effQuadrantCount s
    let r := flushEntries beh count F entries { s with dirtyLayers := [] }
    if r.1 then (true, { r.2 with flushPending := false }) else (false, r.2)

/-- A concrete memory-only grid state (no gateway, cold cache) carrying
sparse overlay data for cell `(2,2)` of layer `0`, used as witness
input. -/
def memState : GridState :=
  { layerCache := fun _ => none
    db := false
    disposed := false
    lmetaStore := fun _ => none
    layerQStore := fun _ _ => none
    basezStore := fun _ => none
    schema := { id := 1, fieldNames := ["O2", "CO2", "H2O"] }
    quadrantCount := 16
    envExpressions := []
    dataTable := [((2, 2, 0), [("O2", 5)])]
    cellsX := 4
    cellsY := 4
    effectiveCellsZ := 4
    nuclei := fun _ => some (2, 1)
    dirtyLayers := []
    flushPending := false }

/-- Witness state for the flush claims: a gateway-backed instance with
layer `0` resident and quadrant `3` of layer `0` marked dirty. -/
def flushState : GridState :=
  { memState with
    db := true
    layerCache := fun k => if k = 0 then some zeroBuf else none
    dirtyLayers := [(0, [3])] }

/-- Gateway behavior with one transient length mismatch (attempt 0 reads
back `0` bytes) followed by successful verification. -/
def behGood : FlushBeh := fun _ qi k => if k = 0 then 0 else quadByteLength 16 3 qi

/-- Gateway behavior whose read-back length never matches (off by four
bytes on every attempt). -/
def behBad : FlushBeh := fun _ qi _ => quadByteLength 16 3 qi + 1

/-- Stored quadrant slice used as witness input: every float of the
packed buffer is `5`. -/
def storedQuad : Buf := fun _ => 5

/-- Witness state for the schema-migration claim: the layer metadata of
layer `0` records the old schema `(1, [O2, CO2, H2O])` and every quadrant
slice of layer `0` is `storedQuad`, while the current schema has evolved
to `(2, [O2, N2])`. -/
def migrationState : GridState :=
  { memState with
    db := true
    schema := { id := 2, fieldNames := ["O2", "N2"] }
    lmetaStore := fun k => if k = 0 then some (1, ["O2", "CO2", "H2O"]) else none
    layerQStore := fun k _ => if k = 0 then some storedQuad else none
    basezStore := fun _ => none }

/-! ### Quadrant layout arithmetic (claim C1) -/

theorem cdiv_pos {a b : ℕ} (ha : 0 < a) (hb : 0 < b) : 0 < cdiv a b := by
  have h := (Nat.le_div_iff_mul_le hb).mpr (show 1 * b ≤ a + b - 1 by omega)
  unfold cdiv
  omega

theorem le_cdiv_mul {a b : ℕ} (hb : 0 < b) : a ≤ cdiv a b * b := by
  unfold cdiv
  rcases Nat.eq_zero_or_pos a with rfl | ha
  · simp
  · have h1 : (a + b - 1) / b = (a - 1) / b + 1 := by
      have h : a + b - 1 = (a - 1) + b := by omega
      rw [h, Nat.add_div_right _ hb]
    rw [h1]
    have h2 := Nat.div_add_mod (a - 1) b
    have h3 := Nat.mod_lt (a - 1) hb
    have h4 : ((a - 1) / b + 1) * b = b * ((a - 1) / b) + b := by ring
    rw [h4]
    generalize hq : (a - 1) / b = q at h2 ⊢
    generalize hr : (a - 1) % b = r at h2 h3
    generalize hM : b * q = M at h2 ⊢
    omega

theorem lt_div_mul_add {a b : ℕ} (hb : 0 < b) : a < a / b * b + b := by
  have h1 := Nat.div_add_mod a b
  have h2 := Nat.mod_lt a hb
  have h4 : a / b * b = b * (a / b) := by ring
  rw [h4]
  generalize hq : a / b = q at h1 ⊢
  generalize hr : a % b = r at h1 h2
  generalize hM : b * q = M at h1 ⊢
  omega

theorem ceilSqrt_pos {n : ℕ} (h : 0 < n) : 0 < ceilSqrt n := by
  unfold ceilSqrt
  split
  · exact Nat.sqrt_pos.mpr h
  · omega

theorem spec_cols_pos {count : ℕ} (h : 1 ≤ count) : 0 < (quadrantSpec count).cols :=
  ceilSqrt_pos h

theorem spec_rows_pos {count : ℕ} (h : 1 ≤ count) : 0 < (quadrantSpec count).rows :=
  cdiv_pos h (spec_cols_pos h)

theorem spec_qW_pos {count : ℕ} (h : 1 ≤ count) : 0 < (quadrantSpec count).qW :=
  cdiv_pos (by norm_num [DENSE_W]) (spec_cols_pos h)

theorem spec_qH_pos {count : ℕ} (h : 1 ≤ count) : 0 < (quadrantSpec count).qH :=
  cdiv_pos (by norm_num [DENSE_H]) (spec_rows_pos h)

theorem width_le_cols_qW {count : ℕ} (h : 1 ≤ count) :
    DENSE_W ≤ (quadrantSpec count).cols * (quadrantSpec count).qW := by
  have h2 := @le_cdiv_mul DENSE_W (quadrantSpec count).cols (spec_cols_pos h)
  rw [mul_comm] at h2
  exact h2

theorem height_le_rows_qH {count : ℕ} (h : 1 ≤ count) :
    DENSE_H ≤ (quadrantSpec count).rows * (quadrantSpec count).qH := by
  have h2 := @le_cdiv_mul DENSE_H (quadrantSpec count).rows (spec_rows_pos h)
  rw [mul_comm] at h2
  exact h2

theorem col_div_lt {count px : ℕ} (hc : 1 ≤ count) (hx : px < DENSE_W) :
    px / (quadrantSpec count).qW < (quadrantSpec count).cols :=
  (Nat.div_lt_iff_lt_mul (spec_qW_pos hc)).mpr (lt_of_lt_of_le hx (width_le_cols_qW hc))

theorem row_div_lt {count py : ℕ} (hc : 1 ≤ count) (hy : py < DENSE_H) :
    py / (quadrantSpec count).qH < (quadrantSpec count).rows :=
  (Nat.div_lt_iff_lt_mul (spec_qH_pos hc)).mpr (lt_of_lt_of_le hy (height_le_rows_qH hc))

/-- Membership in a quadrant region determines the quadrant index: the
region of `qi` forces `px / qW = qi % cols` and `py / qH = qi / cols`. -/
theorem region_index_unique {count qi px py : ℕ}
    (h : inQuadRegion count qi px py) : qi = pixelQuadIndex count px py := by
  simp only [inQuadRegion, quadrantRange] at h
  obtain ⟨h1, h2, h3, h4⟩ := h
  have hxu : px < (qi % (quadrantSpec count).cols + 1) * (quadrantSpec count).qW := by
    have := lt_of_lt_of_le h2 (min_le_left _ _)
    calc px < qi % (quadrantSpec count).cols * (quadrantSpec count).qW
        + (quadrantSpec count).qW := this
    _ = (qi % (quadrantSpec count).cols + 1) * (quadrantSpec count).qW := by ring
  have hyu : py < (qi / (quadrantSpec count).cols + 1) * (quadrantSpec count).qH := by
    have := lt_of_lt_of_le h4 (min_le_left _ _)
    calc py < qi / (quadrantSpec count).cols * (quadrantSpec count).qH
        + (quadrantSpec count).qH := this
    _ = (qi / (quadrantSpec count).cols + 1) * (quadrantSpec count).qH := by ring
  have hcol : px / (quadrantSpec count).qW = qi % (quadrantSpec count).cols :=
    Nat.div_eq_of_lt_le h1 hxu
  have hrow : py / (quadrantSpec count).qH = qi / (quadrantSpec count).cols :=
    Nat.div_eq_of_lt_le h3 hyu
  simp only [pixelQuadIndex]
  rw [hcol, hrow]
  have hdm := Nat.div_add_mod qi (quadrantSpec count).cols
  rw [mul_comm] at hdm
  exact hdm.symm

/-- Every on-canvas pixel lies in the region of its computed index. -/
theorem inQuadRegion_pixelQuad {count px py : ℕ} (hc : 1 ≤ count)
    (hx : px < DENSE_W) (hy : py < DENSE_H) :
    inQuadRegion count (pixelQuadIndex count px py) px py := by
  have hcols := spec_cols_pos hc
  have hqW := spec_qW_pos hc
  have hqH := spec_qH_pos hc
  have hcd := col_div_lt hc hx
  have hrd := row_div_lt hc hy
  have hmod : pixelQuadIndex count px py % (quadrantSpec count).cols
      = px / (quadrantSpec count).qW := by
    simp only [pixelQuadIndex]
    rw [mul_comm, Nat.mul_add_mod, Nat.mod_eq_of_lt hcd]
  have hdiv : pixelQuadIndex count px py / (quadrantSpec count).cols
      = py / (quadrantSpec count).qH := by
    simp only [pixelQuadIndex]
    rw [mul_comm, Nat.mul_add_div hcols, Nat.div_eq_of_lt hcd, add_zero]
  simp only [inQuadRegion, quadrantRange]
  rw [hmod, hdiv]
  refine ⟨Nat.div_mul_le_self _ _, lt_min (lt_div_mul_add hqW) hx,
    Nat.div_mul_le_self _ _, lt_min (lt_div_mul_add hqH) hy⟩

theorem pixelQuadIndex_lt_rows_cols {count px py : ℕ} (hc : 1 ≤ count)
    (hx : px < DENSE_W) (hy : py < DENSE_H) :
    pixelQuadIndex count px py < (quadrantSpec count).rows * (quadrantSpec count).cols := by
  have hcd := col_div_lt hc hx
  have hrd := row_div_lt hc hy
  simp only [pixelQuadIndex]
  calc py / (quadrantSpec count).qH * (quadrantSpec count).cols + px / (quadrantSpec count).qW
      < py / (quadrantSpec count).qH * (quadrantSpec count).cols + (quadrantSpec count).cols :=
        Nat.add_lt_add_left hcd _
  _ = (py / (quadrantSpec count).qH + 1) * (quadrantSpec count).cols := by ring
  _ ≤ (quadrantSpec count).rows * (quadrantSpec count).cols :=
        Nat.mul_le_mul_right _ (Nat.succ_le_of_lt hrd)

/-- On the canvas the clamps of `quadrantIndexFromDense` are no-ops. -/
theorem quadrantIndexFromDense_eq_pixel {count px py : ℕ} (hc : 1 ≤ count)
    (hx : px < DENSE_W) (hy : py < DENSE_H) :
    quadrantIndexFromDense count px py = pixelQuadIndex count px py := by
  have hcd := col_div_lt hc hx
  have hrd := row_div_lt hc hy
  simp only [quadrantIndexFromDense, pixelQuadIndex]
  rw [Nat.min_eq_right (by omega), Nat.min_eq_right (by omega)]

/-- C1 (amended).  For every quadrant count `Q ∈ [1, W*H]` and every dense
pixel: the pixel lies in the region of its row-major index
`row*cols + col`, that index is below `rows*cols`, no pixel lies in two
quadrant regions, and the index stays below `Q` itself whenever
`rows*cols = Q` (in particular for the default `Q = 16`); the clamped
source function `quadrantIndexFromDense` computes exactly this index.
The original claim also asserted coverage by an index in `[0, Q)` for
every `Q`, which fails for `Q = 5` (see the counterexample). -/
theorem claim_C1_amended (count px py : ℕ) (hc : 1 ≤ count)
    (_hc2 : count ≤ DENSE_W * DENSE_H) (hx : px < DENSE_W) (hy : py < DENSE_H) :
    inQuadRegion count (pixelQuadIndex count px py) px py
    ∧ pixelQuadIndex count px py < (quadrantSpec count).rows * (quadrantSpec count).cols
    ∧ (∀ q1 q2 : ℕ, inQuadRegion count q1 px py → inQuadRegion count q2 px py → q1 = q2)
    ∧ ((quadrantSpec count).rows * (quadrantSpec count).cols = count →
        pixelQuadIndex count px py < count)
    ∧ quadrantIndexFromDense count px py = pixelQuadIndex count px py := by
  refine ⟨inQuadRegion_pixelQuad hc hx hy, pixelQuadIndex_lt_rows_cols hc hx hy,
    ?_, ?_, quadrantIndexFromDense_eq_pixel hc hx hy⟩
  · intro q1 q2 hq1 hq2
    rw [region_index_unique hq1, region_index_unique hq2]
  · intro h
    exact lt_of_lt_of_le (pixelQuadIndex_lt_rows_cols hc hx hy) (le_of_eq h)

/-- C1 counterexample: with `Q = 5` (`cols = 3`, `rows = 2`) the pixel
`(684, 512)` lies in the region of index `5`, outside `[0, 5)`: no
quadrant index in range covers it, so the claimed exact coverage for
every `Q ∈ [1, W*H]` is false. -/
theorem claim_C1_counterexample :
    (1 ≤ 5 ∧ 5 ≤ DENSE_W * DENSE_H ∧ 684 < DENSE_W ∧ 512 < DENSE_H)
    ∧ (∀ qi, qi < 5 → ¬ inQuadRegion 5 qi 684 512) := by
  have h5 : quadrantSpec 5 = ⟨5, 3, 2, 342, 512⟩ := by
    norm_num [quadrantSpec, ceilSqrt, cdiv, DENSE_W, DENSE_H]
  constructor
  · norm_num [DENSE_W, DENSE_H]
  · intro qi hqi
    simp only [inQuadRegion, quadrantRange, h5]
    omega

/-- Witness for `claim_C1_amended` at `Q = 16`, pixel `(700, 300)`. -/
theorem claim_C1_witness :
    inQuadRegion 16 (pixelQuadIndex 16 700 300) 700 300 :=
  (claim_C1_amended 16 700 300 (by decide) (by decide) (by decide) (by decide)).1

/-! ### Schema evolution (claim C5) -/

theorem arraysEqual_iff (a : List String) : ∀ (b : List String),
    arraysEqual a b = true ↔ a = b := by
  induction a with
  | nil => intro b; cases b <;> simp [arraysEqual]
  | cons x xs ih =>
    intro b
    cases b with
    | nil => simp [arraysEqual]
    | cons y ys =>
      have h := ih ys
      simp only [arraysEqual, List.length_cons, List.zip_cons_cons, List.all_cons,
        Bool.and_eq_true, beq_iff_eq, List.cons.injEq, Nat.add_right_cancel_iff] at h ⊢
      constructor
      · rintro ⟨h1, h2, h3⟩
        exact ⟨h2, h.mp ⟨h1, h3⟩⟩
      · rintro ⟨rfl, rfl⟩
        exact ⟨(h.mpr rfl).1, rfl, (h.mpr rfl).2⟩

/-- C5.  `evolveSchema` keeps the schema id exactly when the input is
empty or sequence-equal (order-sensitive) to the current field list;
otherwise the result has id `old + 1` and carries the new field list
(from which the name-to-offset index is re-derived).  Consequently two
set-equal but differently ordered field lists yield a different id. -/
theorem claim_C5_evolveSchema :
    (∀ (s : Schema) (input : List String),
      (evolveSchema s input).id = s.id ↔ (input = [] ∨ input = s.fieldNames))
    ∧ (∀ (s : Schema) (input : List String), input ≠ [] → input ≠ s.fieldNames →
        (evolveSchema s input).id = s.id + 1 ∧ (evolveSchema s input).fieldNames = input)
    ∧ (∀ (id0 : ℕ) (A B : List String), A.toFinset = B.toFinset → A ≠ B →
        (evolveSchema { id := id0, fieldNames := B } A).id = id0 + 1) := by
  have hcompute : ∀ (s : Schema) (input : List String), input ≠ [] →
      input ≠ s.fieldNames →
      (evolveSchema s input).id = s.id + 1 ∧ (evolveSchema s input).fieldNames = input := by
    intro s input h1 h2
    unfold evolveSchema
    rw [if_neg (by simpa [List.isEmpty_iff] using h1),
      if_neg (by simp [arraysEqual_iff, h2])]
    exact ⟨rfl, rfl⟩
  refine ⟨?_, hcompute, ?_⟩
  · intro s input
    by_cases h1 : input = []
    · subst h1; simp [evolveSchema]
    · by_cases h2 : input = s.fieldNames
      · subst h2
        simp [evolveSchema, List.isEmpty_iff, h1, arraysEqual_iff]
      · rw [(hcompute s input h1 h2).1]
        simp [h1, h2]
  · intro id0 A B hset hne
    have hA : A ≠ [] := by
      intro hA
      subst hA
      have : B.toFinset = ∅ := by simpa using hset.symm
      rw [List.toFinset_eq_empty_iff] at this
      exact hne this.symm
    exact (hcompute { id := id0, fieldNames := B } A hA (by simpa using hne)).1

/-- Witness for `claim_C5_evolveSchema`: evolving from `[N2, O2]` to the
set-equal but reordered `[O2, N2]` bumps the schema id. -/
theorem claim_C5_witness :
    (evolveSchema { id := 7, fieldNames := ["N2", "O2"] } ["O2", "N2"]).id = 7 + 1 :=
  claim_C5_evolveSchema.2.2 7 ["O2", "N2"] ["N2", "O2"] (by decide) (by decide)

/-! ### Nucleus-centered mapping (claim C3) -/

/-- C3.  For every grid state and layer, mapping the layer nucleus cell
through `mapCellToDense` lands on the fixed dense center pixel
`(denseDim/2 - 1, denseDim/2 - 1) = (511, 511)`, independent of the
logical grid dimensions. -/
theorem claim_C3_nucleus_maps_to_center (s : GridState) (z : ℤ) :
    mapCellToDense s z (getNucleus s z).1 (getNucleus s z).2 = (511, 511) := by
  have h0 : jsRound 0 = 0 := by
    unfold jsRound
    norm_num
  simp only [mapCellToDense, sub_self, Int.cast_zero, zero_mul, h0]
  decide

/-! ### Dense layer cache behavior (claims C9, C10) -/

theorem ensureDenseLayer_caches (s : GridState) (z : ℤ) :
    (ensureDenseLayer s z).2.layerCache z = some (ensureDenseLayer s z).1 := by
  simp only [ensureDenseLayer]
  cases hcache : s.layerCache z with
  | some arr => simpa using hcache
  | none =>
    cases hdb : s.db with
    | false => simp [cacheInsert]
    | true =>
      simp only [Bool.true_eq_false, if_false]
      split
      · split
        · simp [cacheInsert]
        · simp [cacheInsert]
      · simp [cacheInsert]

/-- C9.  Two consecutive `ensureDenseLayer` calls for the same layer with
no intervening writes return the identical buffer, the second being the
cache hit of the first, and leave the state unchanged. -/
theorem claim_C9_ensure_idempotent (s : GridState) (z : ℤ) :
    (ensureDenseLayer (ensureDenseLayer s z).2 z).1 = (ensureDenseLayer s z).1
    ∧ (ensureDenseLayer (ensureDenseLayer s z).2 z).2 = (ensureDenseLayer s z).2 := by
  have h := ensureDenseLayer_caches s z
  rcases hr : ensureDenseLayer s z with ⟨b1, s1⟩
  rw [hr] at h
  simp only at h ⊢
  simp only [ensureDenseLayer]
  rw [h]
  exact ⟨rfl, rfl⟩

/-- C10.  With no persistence gateway, materializing a not-yet-cached
layer returns the all-zero buffer: neither the zero template nor the
sparse overlay projection is applied, so a cold read of any cell and
field yields `0` even when sparse overlay data exists for that cell. -/
theorem claim_C10_memory_only_zero (s : GridState) (z : ℤ)
    (hdb : s.db = false) (hmiss : s.layerCache z = none) :
    (ensureDenseLayer s z).1 = zeroBuf
    ∧ (∀ (x y : ℤ) (field : String), (sampleDenseForCell s z x y field).1 = 0) := by
  have h1 : ensureDenseLayer s z = (zeroBuf, cacheInsert s z zeroBuf) := by
    simp only [ensureDenseLayer]
    rw [hmiss]
    simp [hdb]
  refine ⟨by rw [h1], ?_⟩
  intro x y field
  unfold sampleDenseForCell
  cases hf : indexGet s.schema.fieldNames field with
  | none => simp
  | some fi => simp [h1, zeroBuf]

/-- Witness for `claim_C10_memory_only_zero`: the memory-only state holds
sparse overlay data `{O2: 5}` at cell `(2,2)` of layer 0, yet the cold
read of that cell and field returns `0`. -/
theorem claim_C10_witness :
    memState.db = false ∧ memState.layerCache 0 = none ∧ memState.dataTable ≠ []
    ∧ (sampleDenseForCell memState 0 2 2 "O2").1 = 0 :=
  ⟨rfl, rfl, by decide,
    (claim_C10_memory_only_zero memState 0 rfl rfl).2 2 2 "O2"⟩

/-! ### Nucleus selection (claim C8) -/

theorem pick_fold_spec (a b c d : ℤ × ℤ) (f : ℤ × ℤ → ℝ) :
    ∃ i, i < 4
      ∧ (([a, b, c, d].map fun x => (x, f x)).foldl pickStep (a, none)).1
          = [a, b, c, d].getD i (0, 0)
      ∧ (∀ x ∈ [a, b, c, d], f x ≤ f ([a, b, c, d].getD i (0, 0)))
      ∧ (∀ j, j < i → f ([a, b, c, d].getD j (0, 0)) < f ([a, b, c, d].getD i (0, 0))) := by
  have step0 : pickStep (a, none) (a, f a) = (a, some (f a)) := rfl
  simp only [List.map_cons, List.map_nil, List.foldl_cons, List.foldl_nil, step0]
  by_cases h1 : f a < f b
  · rw [show pickStep (a, some (f a)) (b, f b) = (b, some (f b)) by simp [pickStep, h1]]
    by_cases h2 : f b < f c
    · rw [show pickStep (b, some (f b)) (c, f c) = (c, some (f c)) by simp [pickStep, h2]]
      by_cases h3 : f c < f d
      · rw [show pickStep (c, some (f c)) (d, f d) = (d, some (f d)) by simp [pickStep, h3]]
        refine ⟨3, by norm_num, rfl, ?_, ?_⟩
        · intro x hx
          simp only [List.mem_cons, List.not_mem_nil, or_false] at hx
          simp only [List.getD_cons_succ, List.getD_cons_zero]
          rcases hx with rfl | rfl | rfl | rfl <;> linarith
        · intro j hj
          interval_cases j <;> simp only [List.getD_cons_succ, List.getD_cons_zero] <;> linarith
      · rw [show pickStep (c, some (f c)) (d, f d) = (c, some (f c)) by simp [pickStep, h3]]
        refine ⟨2, by norm_num, rfl, ?_, ?_⟩
        · intro x hx
          simp only [List.mem_cons, List.not_mem_nil, or_false] at hx
          simp only [List.getD_cons_succ, List.getD_cons_zero]
          rcases hx with rfl | rfl | rfl | rfl <;> linarith
        · intro j hj
          interval_cases j <;> simp only [List.getD_cons_succ, List.getD_cons_zero] <;> linarith
    · rw [show pickStep (b, some (f b)) (c, f c) = (b, some (f b)) by simp [pickStep, h2]]
      by_cases h3 : f b < f d
      · rw [show pickStep (b, some (f b)) (d, f d) = (d, some (f d)) by simp [pickStep, h3]]
        refine ⟨3, by norm_num, rfl, ?_, ?_⟩
        · intro x hx
          simp only [List.mem_cons, List.not_mem_nil, or_false] at hx
          simp only [List.getD_cons_succ, List.getD_cons_zero]
          rcases hx with rfl | rfl | rfl | rfl <;> linarith
        · intro j hj
          interval_cases j <;> simp only [List.getD_cons_succ, List.getD_cons_zero] <;> linarith
      · rw [show pickStep (b, some (f b)) (d, f d) = (b, some (f b)) by simp [pickStep, h3]]
        refine ⟨1, by norm_num, rfl, ?_, ?_⟩
        · intro x hx
          simp only [List.mem_cons, List.not_mem_nil, or_false] at hx
          simp only [List.getD_cons_succ, List.getD_cons_zero]
          rcases hx with rfl | rfl | rfl | rfl <;> linarith
        · intro j hj
          interval_cases j <;> simp only [List.getD_cons_succ, List.getD_cons_zero] <;> linarith
  · rw [show pickStep (a, some (f a)) (b, f b) = (a, some (f a)) by simp [pickStep, h1]]
    by_cases h2 : f a < f c
    · rw [show pickStep (a, some (f a)) (c, f c) = (c, some (f c)) by simp [pickStep, h2]]
      by_cases h3 : f c < f d
      · rw [show pickStep (c, some (f c)) (d, f d) = (d, some (f d)) by simp [pickStep, h3]]
        refine ⟨3, by norm_num, rfl, ?_, ?_⟩
        · intro x hx
          simp only [List.mem_cons, List.not_mem_nil, or_false] at hx
          simp only [List.getD_cons_succ, List.getD_cons_zero]
          rcases hx with rfl | rfl | rfl | rfl <;> linarith
        · intro j hj
          interval_cases j <;> simp only [List.getD_cons_succ, List.getD_cons_zero] <;> linarith
      · rw [show pickStep (c, some (f c)) (d, f d) = (c, some (f c)) by simp [pickStep, h3]]
        refine ⟨2, by norm_num, rfl, ?_, ?_⟩
        · intro x hx
          simp only [List.mem_cons, List.not_mem_nil, or_false] at hx
          simp only [List.getD_cons_succ, List.getD_cons_zero]
          rcases hx with rfl | rfl | rfl | rfl <;> linarith
        · intro j hj
          interval_cases j <;> simp only [List.getD_cons_succ, List.getD_cons_zero] <;> linarith
    · rw [show pickStep (a, some (f a)) (c, f c) = (a, some (f a)) by simp [pickStep, h2]]
      by_cases h3 : f a < f d
      · rw [show pickStep (a, some (f a)) (d, f d) = (d, some (f d)) by simp [pickStep, h3]]
        refine ⟨3, by norm_num, rfl, ?_, ?_⟩
        · intro x hx
          simp only [List.mem_cons, List.not_mem_nil, or_false] at hx
          simp only [List.getD_cons_succ, List.getD_cons_zero]
          rcases hx with rfl | rfl | rfl | rfl <;> linarith
        · intro j hj
          interval_cases j <;> simp only [List.getD_cons_succ, List.getD_cons_zero] <;> linarith
      · rw [show pickStep (a, some (f a)) (d, f d) = (a, some (f a)) by simp [pickStep, h3]]
        refine ⟨0, by norm_num, rfl, ?_, ?_⟩
        · intro x hx
          simp only [List.mem_cons, List.not_mem_nil, or_false] at hx
          simp only [List.getD_cons_succ, List.getD_cons_zero]
          rcases hx with rfl | rfl | rfl | rfl <;> linarith
        · intro j hj
          omega

theorem candidateScore_zero_dir (w h : ℕ) (c : ℤ × ℤ) :
    candidateScore w h (0, 0) c = 0 := by
  simp [candidateScore, hypotR]

/-- C8 (amended).  `pickNucleusByDirection` returns the first candidate
in enumeration order whose score (the dot product of the
`hypot`-normalized, `|| 1`-guarded offset with the `|| 1`-guarded
normalized direction) is maximal: earlier candidates score strictly
lower, later ones at most equal.  A zero-length direction however
normalizes to the zero vector (`hypot || 1` keeps the components `0`),
all scores are `0`, and the first candidate `(cx-1, cy-1)` is returned,
which is not the result for direction `(1, 0)` (see counterexample). -/
theorem claim_C8_amended (w h : ℕ) (dir : ℝ × ℝ) :
    (∃ i, i < 4
      ∧ pickNucleusByDirection w h dir = (nucleusCandidates w h).getD i (0, 0)
      ∧ (∀ c ∈ nucleusCandidates w h,
          candidateScore w h dir c
            ≤ candidateScore w h dir ((nucleusCandidates w h).getD i (0, 0)))
      ∧ (∀ j, j < i →
          candidateScore w h dir ((nucleusCandidates w h).getD j (0, 0))
            < candidateScore w h dir ((nucleusCandidates w h).getD i (0, 0))))
    ∧ pickNucleusByDirection w h (0, 0)
        = (((w / 2 : ℕ) : ℤ) - 1, ((h / 2 : ℕ) : ℤ) - 1) := by
  constructor
  · have key := pick_fold_spec
      (((w / 2 : ℕ) : ℤ) - 1, ((h / 2 : ℕ) : ℤ) - 1)
      (((w / 2 : ℕ) : ℤ) - 1, ((h / 2 : ℕ) : ℤ))
      (((w / 2 : ℕ) : ℤ), ((h / 2 : ℕ) : ℤ) - 1)
      (((w / 2 : ℕ) : ℤ), ((h / 2 : ℕ) : ℤ))
      (candidateScore w h dir)
    simpa [pickNucleusByDirection, nucleusCandidates, List.headD] using key
  · simp only [pickNucleusByDirection, nucleusCandidates, List.map_cons, List.map_nil,
      List.headD, List.foldl_cons, List.foldl_nil, candidateScore_zero_dir]
    simp [pickStep, lt_irrefl]

/-- C8 counterexample: for the even grid `w = h = 4`, the zero-length
direction returns `(1, 1)` (all scores zero, first candidate), while
direction `(1, 0)` returns `(2, 1)`: a zero direction does not default
to the `(1, 0)` behavior claimed by the spec. -/
theorem claim_C8_counterexample :
    pickNucleusByDirection 4 4 (0, 0) = (1, 1)
    ∧ pickNucleusByDirection 4 4 (1, 0) = (2, 1)
    ∧ ((1, 1) : ℤ × ℤ) ≠ (2, 1) := by
  have hs2 : (1 : ℝ) < Real.sqrt 2 := (Real.lt_sqrt (by norm_num)).mpr (by norm_num)
  have hs2pos : (0 : ℝ) < Real.sqrt 2 := lt_trans one_pos hs2
  have hs2ne : Real.sqrt 2 ≠ 0 := ne_of_gt hs2pos
  have hfrac : 1 / Real.sqrt 2 < 1 := (div_lt_one hs2pos).mpr hs2
  have hnot : ¬ ((1 : ℝ) < 1 / Real.sqrt 2) := not_lt.mpr (le_of_lt hfrac)
  have score0 : candidateScore 4 4 (1, 0) (1, 1) = 0 := by
    simp only [candidateScore, hypotR]
    norm_num
  have score1 : candidateScore 4 4 (1, 0) (1, 2) = 0 := by
    simp only [candidateScore, hypotR]
    norm_num
  have score2 : candidateScore 4 4 (1, 0) (2, 1) = 1 := by
    simp only [candidateScore, hypotR]
    norm_num
  have score3 : candidateScore 4 4 (1, 0) (2, 2) = 1 / Real.sqrt 2 := by
    simp only [candidateScore, hypotR]
    norm_num [hs2ne]
  refine ⟨?_, ?_, by decide⟩
  · simp only [pickNucleusByDirection, nucleusCandidates, List.map_cons, List.map_nil,
      List.headD, List.foldl_cons, List.foldl_nil, candidateScore_zero_dir]
    simp [pickStep, lt_irrefl]
  · have hcand : nucleusCandidates 4 4 = [(1, 1), (1, 2), (2, 1), (2, 2)] := by
      simp [nucleusCandidates]
    simp only [pickNucleusByDirection, hcand, List.map_cons, List.map_nil, List.headD,
      List.foldl_cons, List.foldl_nil, score0, score1, score2, score3]
    rw [one_div] at hnot
    simp [pickStep, lt_irrefl, hnot]

/-! ### Zero template (claim C7) -/

/-- C7 (amended).  The zero template for a schema id has `Q` quadrant
field-maps; quadrant `i` carries exactly the keys of the supplied
environment expression `envExprs[i] ?? envExprs[0] ?? {}`, every one with
value `0` - not the top `ceil(0.2*n)` magnitude entries with their values,
which is what `quantizePareto` would produce but `createSparseQuadrants`
never invokes.  The operation is idempotent for a fixed schema id: a
second `ensureZeroTemplate` call returns the same template from the cache
without recreating it and leaves the state unchanged. -/
theorem claim_C7_amended (s : GridState) (count : ℕ)
    (envExprs : List (List (String × ℚ))) :
    ((createSparseQuadrants count envExprs).quadrants.length = count)
    ∧ (∀ i q, (createSparseQuadrants count envExprs).quadrants.get? i = some q →
        (∀ p ∈ q, p.2 = 0)
        ∧ q.map Prod.fst = (envExprs.getD i (envExprs.getD 0 [])).map Prod.fst)
    ∧ ((ensureZeroTemplate (ensureZeroTemplate s).2).1 = (ensureZeroTemplate s).1
       ∧ (ensureZeroTemplate (ensureZeroTemplate s).2).2 = (ensureZeroTemplate s).2) := by
  refine ⟨by simp [createSparseQuadrants], ?_, ?_⟩
  · intro i q hq
    simp only [createSparseQuadrants, List.get?_map] at hq
    by_cases hi : i < count
    · rw [List.get?_range hi] at hq
      simp at hq
      subst hq
      constructor
      · intro p hp
        simp only [List.mem_map] at hp
        obtain ⟨x, _, hx⟩ := hp
        rw [← hx]
      · rw [List.map_map]
        simp only [List.getD_eq_getElem?_getD]
        rfl
    · have hnone : (List.range count).get? i = none := by
        rw [List.get?_eq_none]
        simpa using Nat.le_of_not_lt hi
      rw [hnone] at hq
      simp at hq
  · cases hdb : s.db with
    | false => simp [ensureZeroTemplate, hdb]
    | true =>
      cases hb : s.basezStore s.schema.id with
      | some t => simp [ensureZeroTemplate, hdb, hb]
      | none =>
        simp only [ensureZeroTemplate, hdb, hb]
        simp

/-- C7 counterexample: with the single environment source
`{A: 3, B: 1}` (`n = 2`, so the Pareto rule keeps `ceil(0.4) = 1` entry,
`A` with value `3`), the created template quadrant instead holds both
keys and zeroes their values. -/
theorem claim_C7_counterexample :
    (createSparseQuadrants 16 [[("A", (3 : ℚ)), ("B", 1)]]).quadrants.getD 0 []
        = [("A", 0), ("B", 0)]
    ∧ quantizePareto [("A", (3 : ℚ)), ("B", 1)] = [("A", 3)]
    ∧ ([("A", (0 : ℚ)), ("B", 0)] : List (String × ℚ)) ≠ [("A", 3)] := by
  refine ⟨by decide, by decide, by decide⟩

/-- Witness for `claim_C7_amended` at quadrant `0` of a two-quadrant
template over the source `{A: 3, B: 1}`. -/
theorem claim_C7_witness :
    (∀ p ∈ ([("A", (0 : ℚ)), ("B", 0)] : List (String × ℚ)), p.2 = 0)
    ∧ ([("A", (0 : ℚ)), ("B", 0)] : List (String × ℚ)).map Prod.fst
        = ([("A", (3 : ℚ)), ("B", 1)] : List (String × ℚ)).map Prod.fst :=
  (claim_C7_amended memState 2 [[("A", (3 : ℚ)), ("B", 1)]]).2.1 0
    [("A", 0), ("B", 0)] (by decide)

/-! ### Flush with write-then-read-back verification (claim C4) -/

theorem storeVerifyLoop_true_iff (beh : ℕ → ℕ) (qB : ℕ) :
    ∀ (r a : ℕ), storeVerifyLoop beh qB a r = true ↔ ∃ k, k < r ∧ beh (a + k) = qB := by
  intro r
  induction r with
  | zero =>
    intro a
    simp [storeVerifyLoop]
  | succ n ih =>
    intro a
    simp only [storeVerifyLoop]
    by_cases hb : beh a = qB
    · rw [if_pos hb]
      exact iff_of_true rfl ⟨0, by omega, by simpa using hb⟩
    · rw [if_neg hb, ih (a + 1)]
      constructor
      · rintro ⟨k, hk, hbk⟩
        exact ⟨k + 1, by omega, by rw [show a + (k + 1) = a + 1 + k by ring]; exact hbk⟩
      · rintro ⟨k, hk, hbk⟩
        cases k with
        | zero => exact absurd (by simpa using hbk) hb
        | succ k2 =>
          exact ⟨k2, by omega, by rw [show a + 1 + k2 = a + (k2 + 1) by ring]; exact hbk⟩

theorem storeQuadrantWithVerify_true_iff (beh : ℕ → ℕ) (qB : ℕ) :
    storeQuadrantWithVerify true beh qB 3 = true ↔ ∃ k, k < 3 ∧ beh k = qB := by
  unfold storeQuadrantWithVerify
  rw [if_neg (by simp), storeVerifyLoop_true_iff]
  simp

theorem flushQuadList_isSome_iff (beh : FlushBeh) (count F : ℕ) (z : ℤ) (arr : Buf) :
    ∀ (qis : List ℕ) (store : ℕ → Option Buf),
      (flushQuadList beh count F z arr store qis).isSome = true ↔
        ∀ qi ∈ qis,
          storeQuadrantWithVerify true (beh z qi) (quadByteLength count F qi) 3 = true := by
  intro qis
  induction qis with
  | nil =>
    intro store
    simp [flushQuadList]
  | cons qi rest ih =>
    intro store
    simp only [flushQuadList]
    by_cases hv : storeQuadrantWithVerify true (beh z qi) (quadByteLength count F qi) 3 = true
    · rw [if_pos hv, ih]
      simp [hv]
    · rw [if_neg hv]
      simp only [Option.isSome_none, Bool.false_eq_true, false_iff]
      intro hall
      exact hv (hall qi (by simp))

theorem flushEntries_cache (beh : FlushBeh) (count F : ℕ) :
    ∀ (entries : List (ℤ × List ℕ)) (st : GridState),
      (flushEntries beh count F entries st).2.layerCache = st.layerCache := by
  intro entries
  induction entries with
  | nil => intro st; rfl
  | cons e rest ih =>
    intro st
    rcases e with ⟨z, qis⟩
    cases hc : st.layerCache z with
    | none =>
      simp only [flushEntries, hc]
      exact ih st
    | some arr =>
      cases hq : flushQuadList beh count F z arr (st.layerQStore z) qis with
      | none => simp only [flushEntries, hc, hq]
      | some q2 =>
        simp only [flushEntries, hc, hq]
        exact (ih _).trans rfl

theorem flushEntries_true (beh : FlushBeh) (count F : ℕ) :
    ∀ (entries : List (ℤ × List ℕ)) (st : GridState),
      (∀ z qis, (z, qis) ∈ entries → (st.layerCache z).isSome = true →
        ∀ qi ∈ qis,
          storeQuadrantWithVerify true (beh z qi) (quadByteLength count F qi) 3 = true) →
      (flushEntries beh count F entries st).1 = true := by
  intro entries
  induction entries with
  | nil => intro st _; rfl
  | cons e rest ih =>
    intro st hall
    rcases e with ⟨z, qis⟩
    cases hc : st.layerCache z with
    | none =>
      simp only [flushEntries, hc]
      exact ih st fun z2 q2 hm hs => hall z2 q2 (by simp [hm]) hs
    | some arr =>
      have hver := hall z qis (by simp) (by simp [hc])
      cases hq : flushQuadList beh count F z arr (st.layerQStore z) qis with
      | none =>
        have hcontra := (flushQuadList_isSome_iff beh count F z arr qis (st.layerQStore z)).mpr hver
        rw [hq] at hcontra
        simp at hcontra
      | some q2 =>
        simp only [flushEntries, hc, hq]
        exact ih _ fun z2 qs2 hm hs => hall z2 qs2 (by simp [hm]) hs

theorem flushEntries_false (beh : FlushBeh) (count F : ℕ) :
    ∀ (entries : List (ℤ × List ℕ)) (st : GridState) (z : ℤ) (qis : List ℕ) (qi : ℕ),
      (z, qis) ∈ entries → qi ∈ qis → (st.layerCache z).isSome = true →
      storeQuadrantWithVerify true (beh z qi) (quadByteLength count F qi) 3 = false →
      (flushEntries beh count F entries st).1 = false := by
  intro entries
  induction entries with
  | nil =>
    intro st z qis qi hm
    simp at hm
  | cons e rest ih =>
    intro st z qis qi hm hqi hsome hfail
    rcases e with ⟨z0, qis0⟩
    rcases List.mem_cons.mp hm with heq | hrest
    · rw [Prod.mk.injEq] at heq
      obtain ⟨rfl, rfl⟩ := heq
      cases hc : st.layerCache z with
      | none => rw [hc] at hsome; simp at hsome
      | some arr =>
        cases hq : flushQuadList beh count F z arr (st.layerQStore z) qis with
        | none => simp only [flushEntries, hc, hq]
        | some q2 =>
          have hiff := (flushQuadList_isSome_iff beh count F z arr qis
            (st.layerQStore z)).mp (by rw [hq]; rfl)
          exact absurd (hiff qi hqi) (by simp [hfail])
    · cases hc : st.layerCache z0 with
      | none =>
        simp only [flushEntries, hc]
        exact ih st z qis qi hrest hqi hsome hfail
      | some arr0 =>
        cases hq : flushQuadList beh count F z0 arr0 (st.layerQStore z0) qis0 with
        | none => simp only [flushEntries, hc, hq]
        | some q2 =>
          simp only [flushEntries, hc, hq]
          exact ih _ z qis qi hrest hqi hsome hfail

/-- C4.  During a flush each dirty quadrant of each resident layer is
persisted with write-then-read-back verification comparing the stored
byte length against the slice byte length.  The in-memory buffers
(`layerCache`) are never modified by a flush.  A flush in which every
dirty quadrant verifies within the 3-attempt bound (for instance after
one transient mismatch) returns without raising; a dirty quadrant of a
resident layer that fails verification on all 3 attempts makes the flush
raise the terminal persistence error. -/
theorem claim_C4_flush_retry (s : GridState) (beh : FlushBeh) :
    ((flushDirtyLayers s beh).2.layerCache = s.layerCache)
    ∧ (s.disposed = false → s.db = true →
        (∀ z qis, (z, qis) ∈ s.dirtyLayers → (s.layerCache z).isSome = true →
          ∀ qi ∈ qis, ∃ k, k < 3 ∧ beh z qi k
            = quadByteLength (effQuadrantCount s) s.schema.fieldNames.length qi) →
        (flushDirtyLayers s beh).1 = true)
    ∧ (∀ (z : ℤ) (qis : List ℕ) (qi : ℕ), s.disposed = false → s.db = true →
        (z, qis) ∈ s.dirtyLayers → qi ∈ qis → (s.layerCache z).isSome = true →
        (∀ k, k < 3 → beh z qi k
          ≠ quadByteLength (effQuadrantCount s) s.schema.fieldNames.length qi) →
        (flushDirtyLayers s beh).1 = false) := by
  refine ⟨?_, ?_, ?_⟩
  · simp only [flushDirtyLayers]
    split
    · rfl
    · split
      · rfl
      · split
        · exact flushEntries_cache beh _ _ _ _
        · exact flushEntries_cache beh _ _ _ _
  · intro hdisp hdb hall
    by_cases hemp : s.dirtyLayers.isEmpty = true
    · simp [flushDirtyLayers, hdisp, hdb, hemp]
    · have htrue := flushEntries_true beh (effQuadrantCount s) s.schema.fieldNames.length
        s.dirtyLayers { s with dirtyLayers := [] }
        (fun z qis hm hs qi hqi =>
          (storeQuadrantWithVerify_true_iff (beh z qi) _).mpr (hall z qis hm hs qi hqi))
      rw [hdb, hdisp] at htrue
      simp [flushDirtyLayers, hdisp, hdb, hemp, htrue]
  · intro z qis qi hdisp hdb hmem hqi hsome hfail
    have hemp : s.dirtyLayers.isEmpty = false := by
      cases hdl : s.dirtyLayers with
      | nil => rw [hdl] at hmem; simp at hmem
      | cons a l => simp
    have hver : storeQuadrantWithVerify true (beh z qi)
        (quadByteLength (effQuadrantCount s) s.schema.fieldNames.length qi) 3 = false := by
      rw [Bool.eq_false_iff]
      intro htrue
      obtain ⟨k, hk, hbk⟩ := (storeQuadrantWithVerify_true_iff (beh z qi) _).mp htrue
      exact hfail k hk hbk
    have hfalse := flushEntries_false beh (effQuadrantCount s) s.schema.fieldNames.length
      s.dirtyLayers { s with dirtyLayers := [] } z qis qi hmem hqi hsome hver
    rw [hdb, hdisp] at hfalse
    simp [flushDirtyLayers, hdisp, hdb, hemp, hfalse]

/-- Witness for `claim_C4_flush_retry`: on a state with quadrant `3` of
resident layer `0` dirty, the behavior with one transient length
mismatch then success flushes without raising, while the behavior that
never matches raises the terminal error. -/
theorem claim_C4_witness :
    (flushDirtyLayers flushState behGood).1 = true
    ∧ (flushDirtyLayers flushState behBad).1 = false := by
  constructor
  · refine (claim_C4_flush_retry flushState behGood).2.1 rfl rfl ?_
    intro z qis hm _ qi hqi
    simp only [flushState, memState] at hm
    simp at hm
    obtain ⟨rfl, rfl⟩ := hm
    simp at hqi
    subst hqi
    exact ⟨1, by decide, rfl⟩
  · refine (claim_C4_flush_retry flushState behBad).2.2 0 [3] 3 rfl rfl (by decide)
      (by decide) rfl ?_
    intro k _
    exact Nat.succ_ne_self (quadByteLength 16 3 3)

/-! ### Write path (claim C6) -/

theorem ensureZeroTemplate_state (s : GridState) :
    ∃ b, (ensureZeroTemplate s).2 = { s with basezStore := b } := by
  unfold ensureZeroTemplate
  by_cases hdb : s.db = false
  · rw [if_pos hdb]
    exact ⟨s.basezStore, rfl⟩
  · rw [if_neg hdb]
    cases hb : s.basezStore s.schema.id with
    | some t => exact ⟨s.basezStore, rfl⟩
    | none => exact ⟨_, rfl⟩

theorem ensureDenseLayer_state (s : GridState) (z : ℤ) :
    ∃ c b m q, (ensureDenseLayer s z).2
      = { s with layerCache := c, basezStore := b, lmetaStore := m, layerQStore := q } := by
  obtain ⟨b0, hb0⟩ := ensureZeroTemplate_state s
  cases hcache : s.layerCache z with
  | some arr =>
    simp only [ensureDenseLayer, hcache]
    exact ⟨s.layerCache, s.basezStore, s.lmetaStore, s.layerQStore, rfl⟩
  | none =>
    by_cases hdb : s.db = false
    · simp only [ensureDenseLayer, hcache, if_pos hdb]
      exact ⟨_, s.basezStore, s.lmetaStore, s.layerQStore, rfl⟩
    · simp only [ensureDenseLayer, hcache, if_neg hdb, hb0]
      split
      · split
        · exact ⟨_, _, _, _, rfl⟩
        · exact ⟨_, _, _, _, rfl⟩
      · exact ⟨_, _, _, _, rfl⟩

theorem ensureDenseLayer_schema (s : GridState) (z : ℤ) :
    (ensureDenseLayer s z).2.schema = s.schema := by
  obtain ⟨c, b, m, q, h⟩ := ensureDenseLayer_state s z
  rw [h]

theorem ensureDenseLayer_map (s : GridState) (z z2 x y : ℤ) :
    mapCellToDense (ensureDenseLayer s z).2 z2 x y = mapCellToDense s z2 x y := by
  obtain ⟨c, b, m, q, h⟩ := ensureDenseLayer_state s z
  rw [h]
  rfl

theorem ensureDenseLayer_hit {t : GridState} {z : ℤ} {a : Buf}
    (h : t.layerCache z = some a) : ensureDenseLayer t z = (a, t) := by
  simp only [ensureDenseLayer]
  rw [h]

/-- State facts about the tail of a write call: the mutated buffer is the
cache resident, and the dirty-marking plus flush-scheduling leave the
schema and the cell-to-pixel mapping untouched. -/
theorem writeback_facts (t : GridState) (z : ℤ) (a2 : Buf) (bx byp : ℕ) :
    (scheduleFlush (markDirty (cacheInsert t z a2) z bx byp)).layerCache z = some a2
    ∧ (scheduleFlush (markDirty (cacheInsert t z a2) z bx byp)).schema = t.schema
    ∧ (∀ z2 x2 y2,
        mapCellToDense (scheduleFlush (markDirty (cacheInsert t z a2) z bx byp)) z2 x2 y2
          = mapCellToDense t z2 x2 y2) := by
  unfold scheduleFlush markDirty cacheInsert
  split
  · exact ⟨by simp, rfl, fun z2 x2 y2 => rfl⟩
  · exact ⟨by simp, rfl, fun z2 x2 y2 => rfl⟩

theorem denseIdx_add (F x y fi : ℕ) : denseIdx F x y 0 + fi = denseIdx F x y fi := by
  unfold denseIdx
  omega

theorem addDenseFromCell_single (t : GridState) (z x y : ℤ) (f : String) (fi : ℕ) (v : ℚ)
    (hf : indexGet (ensureDenseLayer t z).2.schema.fieldNames f = some fi) :
    addDenseFromCell t z x y [(f, v)]
      = scheduleFlush (markDirty (cacheInsert (ensureDenseLayer t z).2 z
          (updBuf (ensureDenseLayer t z).1
            (denseIdx (ensureDenseLayer t z).2.schema.fieldNames.length
              (mapCellToDense (ensureDenseLayer t z).2 z x y).1
              (mapCellToDense (ensureDenseLayer t z).2 z x y).2 0 + fi)
            ((ensureDenseLayer t z).1
              (denseIdx (ensureDenseLayer t z).2.schema.fieldNames.length
                (mapCellToDense (ensureDenseLayer t z).2 z x y).1
                (mapCellToDense (ensureDenseLayer t z).2 z x y).2 0 + fi) + v)))
          z (mapCellToDense (ensureDenseLayer t z).2 z x y).1
          (mapCellToDense (ensureDenseLayer t z).2 z x y).2) := by
  simp only [addDenseFromCell, List.foldl_cons, List.foldl_nil, hf]

theorem setDenseFromCell_single (t : GridState) (z x y : ℤ) (f : String) (fi : ℕ) (w : ℚ)
    (hf : indexGet (ensureDenseLayer t z).2.schema.fieldNames f = some fi) :
    setDenseFromCell t z x y [(f, w)]
      = scheduleFlush (markDirty (cacheInsert (ensureDenseLayer t z).2 z
          (updBuf (ensureDenseLayer t z).1
            (denseIdx (ensureDenseLayer t z).2.schema.fieldNames.length
              (mapCellToDense (ensureDenseLayer t z).2 z x y).1
              (mapCellToDense (ensureDenseLayer t z).2 z x y).2 0 + fi) w))
          z (mapCellToDense (ensureDenseLayer t z).2 z x y).1
          (mapCellToDense (ensureDenseLayer t z).2 z x y).2) := by
  simp only [setDenseFromCell, List.foldl_cons, List.foldl_nil, hf]

theorem setDenseFromCell_single_none (t : GridState) (z x y : ℤ) (g : String) (w : ℚ)
    (hg : indexGet (ensureDenseLayer t z).2.schema.fieldNames g = none) :
    setDenseFromCell t z x y [(g, w)]
      = scheduleFlush (markDirty (cacheInsert (ensureDenseLayer t z).2 z
          (ensureDenseLayer t z).1)
          z (mapCellToDense (ensureDenseLayer t z).2 z x y).1
          (mapCellToDense (ensureDenseLayer t z).2 z x y).2) := by
  simp only [setDenseFromCell, List.foldl_cons, List.foldl_nil, hg]

theorem addDenseFromCell_single_none (t : GridState) (z x y : ℤ) (g : String) (w : ℚ)
    (hg : indexGet (ensureDenseLayer t z).2.schema.fieldNames g = none) :
    addDenseFromCell t z x y [(g, w)]
      = scheduleFlush (markDirty (cacheInsert (ensureDenseLayer t z).2 z
          (ensureDenseLayer t z).1)
          z (mapCellToDense (ensureDenseLayer t z).2 z x y).1
          (mapCellToDense (ensureDenseLayer t z).2 z x y).2) := by
  simp only [addDenseFromCell, List.foldl_cons, List.foldl_nil, hg]

theorem sampleDenseForCell_cached {t : GridState} {z : ℤ} {a : Buf}
    (h : t.layerCache z = some a) (x y : ℤ) (field : String) (fi : ℕ)
    (hf : indexGet t.schema.fieldNames field = some fi) :
    (sampleDenseForCell t z x y field).1
      = a (denseIdx t.schema.fieldNames.length (mapCellToDense t z x y).1
          (mapCellToDense t z x y).2 fi) := by
  simp only [sampleDenseForCell, hf, ensureDenseLayer_hit h]

theorem addDenseFromCell_hit {t : GridState} {z : ℤ} {a : Buf}
    (h : t.layerCache z = some a) (x y : ℤ) (f : String) (fi : ℕ) (v : ℚ)
    (hf : indexGet t.schema.fieldNames f = some fi) :
    addDenseFromCell t z x y [(f, v)]
      = scheduleFlush (markDirty (cacheInsert t z
          (updBuf a (denseIdx t.schema.fieldNames.length (mapCellToDense t z x y).1
              (mapCellToDense t z x y).2 0 + fi)
            (a (denseIdx t.schema.fieldNames.length (mapCellToDense t z x y).1
              (mapCellToDense t z x y).2 0 + fi) + v)))
          z (mapCellToDense t z x y).1 (mapCellToDense t z x y).2) := by
  simp only [addDenseFromCell, ensureDenseLayer_hit h, List.foldl_cons, List.foldl_nil, hf]

theorem setDenseFromCell_hit {t : GridState} {z : ℤ} {a : Buf}
    (h : t.layerCache z = some a) (x y : ℤ) (f : String) (fi : ℕ) (w : ℚ)
    (hf : indexGet t.schema.fieldNames f = some fi) :
    setDenseFromCell t z x y [(f, w)]
      = scheduleFlush (markDirty (cacheInsert t z
          (updBuf a (denseIdx t.schema.fieldNames.length (mapCellToDense t z x y).1
              (mapCellToDense t z x y).2 0 + fi) w))
          z (mapCellToDense t z x y).1 (mapCellToDense t z x y).2) := by
  simp only [setDenseFromCell, ensureDenseLayer_hit h, List.foldl_cons, List.foldl_nil, hf]

/-- C6.  With a field `f` at channel `fi` of the current schema and the
mapped pixel channel initially `0`, two `addDenseFromCell` calls with
increment `v` leave `2v` there (exactly, in the rational model of the
float arithmetic), a subsequent `setDenseFromCell` with `w` leaves
exactly `w` regardless of the accumulated value, and both operations
ignore field names the current schema lacks, leaving the buffer
untouched. -/
theorem claim_C6_add_add_set (s : GridState) (z x y : ℤ) (f : String) (fi : ℕ) (v w : ℚ)
    (hf : indexGet s.schema.fieldNames f = some fi)
    (h0 : (ensureDenseLayer s z).1
        (denseIdx s.schema.fieldNames.length (mapCellToDense s z x y).1
          (mapCellToDense s z x y).2 fi) = 0) :
    ((sampleDenseForCell
        (addDenseFromCell (addDenseFromCell s z x y [(f, v)]) z x y [(f, v)])
        z x y f).1 = 2 * v)
    ∧ ((sampleDenseForCell
        (setDenseFromCell
          (addDenseFromCell (addDenseFromCell s z x y [(f, v)]) z x y [(f, v)])
          z x y [(f, w)])
        z x y f).1 = w)
    ∧ (∀ g, indexGet s.schema.fieldNames g = none →
        (setDenseFromCell s z x y [(g, w)]).layerCache z = some (ensureDenseLayer s z).1
        ∧ (addDenseFromCell s z x y [(g, w)]).layerCache z = some (ensureDenseLayer s z).1) := by
  have hsch := ensureDenseLayer_schema s z
  have hf1 : indexGet (ensureDenseLayer s z).2.schema.fieldNames f = some fi := by
    rw [hsch]
    exact hf
  have hA := addDenseFromCell_single s z x y f fi v hf1
  rw [ensureDenseLayer_schema, ensureDenseLayer_map] at hA
  have W2 := writeback_facts (ensureDenseLayer s z).2 z
    (updBuf (ensureDenseLayer s z).1
      (denseIdx s.schema.fieldNames.length (mapCellToDense s z x y).1
        (mapCellToDense s z x y).2 0 + fi)
      ((ensureDenseLayer s z).1
        (denseIdx s.schema.fieldNames.length (mapCellToDense s z x y).1
          (mapCellToDense s z x y).2 0 + fi) + v))
    (mapCellToDense s z x y).1 (mapCellToDense s z x y).2
  have hsch2 := W2.2.1.trans hsch
  have hmap2 : ∀ z2 x2 y2, mapCellToDense (addDenseFromCell s z x y [(f, v)]) z2 x2 y2
      = mapCellToDense s z2 x2 y2 := by
    intro z2 x2 y2
    rw [hA, W2.2.2, ensureDenseLayer_map]
  have hcache2 : (addDenseFromCell s z x y [(f, v)]).layerCache z
      = some (updBuf (ensureDenseLayer s z).1
          (denseIdx s.schema.fieldNames.length (mapCellToDense s z x y).1
            (mapCellToDense s z x y).2 0 + fi)
          ((ensureDenseLayer s z).1
            (denseIdx s.schema.fieldNames.length (mapCellToDense s z x y).1
              (mapCellToDense s z x y).2 0 + fi) + v)) := by
    rw [hA]
    exact W2.1
  have hschA : (addDenseFromCell s z x y [(f, v)]).schema = s.schema := by
    rw [hA]
    exact hsch2
  have hfA : indexGet (addDenseFromCell s z x y [(f, v)]).schema.fieldNames f = some fi := by
    rw [hschA]
    exact hf
  have hB := addDenseFromCell_hit hcache2 x y f fi v hfA
  rw [hschA] at hB
  rw [hmap2] at hB
  -- the accumulated buffer after the second add
  have W3 := writeback_facts (addDenseFromCell s z x y [(f, v)]) z
    (updBuf (updBuf (ensureDenseLayer s z).1
        (denseIdx s.schema.fieldNames.length (mapCellToDense s z x y).1
          (mapCellToDense s z x y).2 0 + fi)
        ((ensureDenseLayer s z).1
          (denseIdx s.schema.fieldNames.length (mapCellToDense s z x y).1
            (mapCellToDense s z x y).2 0 + fi) + v))
      (denseIdx s.schema.fieldNames.length (mapCellToDense s z x y).1
        (mapCellToDense s z x y).2 0 + fi)
      (updBuf (ensureDenseLayer s z).1
        (denseIdx s.schema.fieldNames.length (mapCellToDense s z x y).1
          (mapCellToDense s z x y).2 0 + fi)
        ((ensureDenseLayer s z).1
          (denseIdx s.schema.fieldNames.length (mapCellToDense s z x y).1
            (mapCellToDense s z x y).2 0 + fi) + v)
        (denseIdx s.schema.fieldNames.length (mapCellToDense s z x y).1
          (mapCellToDense s z x y).2 0 + fi) + v))
    (mapCellToDense s z x y).1 (mapCellToDense s z x y).2
  have hcache3 := W3.1
  rw [← hB] at hcache3
  have hschB : (addDenseFromCell (addDenseFromCell s z x y [(f, v)]) z x y [(f, v)]).schema
      = s.schema := by
    rw [hB]
    exact W3.2.1.trans hschA
  have hmap3 : ∀ z2 x2 y2,
      mapCellToDense (addDenseFromCell (addDenseFromCell s z x y [(f, v)]) z x y [(f, v)])
        z2 x2 y2 = mapCellToDense s z2 x2 y2 := by
    intro z2 x2 y2
    rw [hB, W3.2.2, hmap2]
  have hfB : indexGet (addDenseFromCell (addDenseFromCell s z x y [(f, v)]) z x y
      [(f, v)]).schema.fieldNames f = some fi := by
    rw [hschB]
    exact hf
  refine ⟨?_, ?_, ?_⟩
  · rw [sampleDenseForCell_cached hcache3 x y f fi hfB, hschB, hmap3, denseIdx_add]
    simp [updBuf, h0]
    ring
  · have hC := setDenseFromCell_hit hcache3 x y f fi w hfB
    rw [hschB] at hC
    rw [hmap3] at hC
    have W4 := writeback_facts
      (addDenseFromCell (addDenseFromCell s z x y [(f, v)]) z x y [(f, v)]) z
      (updBuf (updBuf (updBuf (ensureDenseLayer s z).1
          (denseIdx s.schema.fieldNames.length (mapCellToDense s z x y).1
            (mapCellToDense s z x y).2 0 + fi)
          ((ensureDenseLayer s z).1
            (denseIdx s.schema.fieldNames.length (mapCellToDense s z x y).1
              (mapCellToDense s z x y).2 0 + fi) + v))
        (denseIdx s.schema.fieldNames.length (mapCellToDense s z x y).1
          (mapCellToDense s z x y).2 0 + fi)
        (updBuf (ensureDenseLayer s z).1
          (denseIdx s.schema.fieldNames.length (mapCellToDense s z x y).1
            (mapCellToDense s z x y).2 0 + fi)
          ((ensureDenseLayer s z).1
            (denseIdx s.schema.fieldNames.length (mapCellToDense s z x y).1
              (mapCellToDense s z x y).2 0 + fi) + v)
          (denseIdx s.schema.fieldNames.length (mapCellToDense s z x y).1
            (mapCellToDense s z x y).2 0 + fi) + v))
        (denseIdx s.schema.fieldNames.length (mapCellToDense s z x y).1
          (mapCellToDense s z x y).2 0 + fi) w)
      (mapCellToDense s z x y).1 (mapCellToDense s z x y).2
    have hcache4 := W4.1
    rw [← hC] at hcache4
    have hschC : (setDenseFromCell
        (addDenseFromCell (addDenseFromCell s z x y [(f, v)]) z x y [(f, v)])
        z x y [(f, w)]).schema = s.schema := by
      rw [hC]
      exact W4.2.1.trans hschB
    have hmap4 : ∀ z2 x2 y2, mapCellToDense (setDenseFromCell
        (addDenseFromCell (addDenseFromCell s z x y [(f, v)]) z x y [(f, v)])
        z x y [(f, w)]) z2 x2 y2 = mapCellToDense s z2 x2 y2 := by
      intro z2 x2 y2
      rw [hC, W4.2.2, hmap3]
    have hfC : indexGet (setDenseFromCell
        (addDenseFromCell (addDenseFromCell s z x y [(f, v)]) z x y [(f, v)])
        z x y [(f, w)]).schema.fieldNames f = some fi := by
      rw [hschC]
      exact hf
    rw [sampleDenseForCell_cached hcache4 x y f fi hfC, hschC, hmap4, denseIdx_add]
    simp [updBuf]
  · intro g hg
    have hg1 : indexGet (ensureDenseLayer s z).2.schema.fieldNames g = none := by
      rw [hsch]
      exact hg
    constructor
    · rw [setDenseFromCell_single_none s z x y g w hg1]
      exact (writeback_facts _ _ _ _ _).1
    · rw [addDenseFromCell_single_none s z x y g w hg1]
      exact (writeback_facts _ _ _ _ _).1

/-- Witness for `claim_C6_add_add_set`: on the memory-only state, two
`O2 += 5` writes at cell `(2,2)` read back `10`, and a following
`O2 := 7` reads back `7`. -/
theorem claim_C6_witness :
    (sampleDenseForCell
        (addDenseFromCell (addDenseFromCell memState 0 2 2 [("O2", 5)]) 0 2 2 [("O2", 5)])
        0 2 2 "O2").1 = 2 * 5
    ∧ (sampleDenseForCell
        (setDenseFromCell
          (addDenseFromCell (addDenseFromCell memState 0 2 2 [("O2", 5)]) 0 2 2 [("O2", 5)])
          0 2 2 [("O2", 7)])
        0 2 2 "O2").1 = 7 :=
  ⟨(claim_C6_add_add_set memState 0 2 2 "O2" 0 5 7 (by decide) rfl).1,
   (claim_C6_add_add_set memState 0 2 2 "O2" 0 5 7 (by decide) rfl).2.1⟩

/-! ### Schema migration on materialization (claim C2) -/

theorem denseIdx_mod (F x y fi : ℕ) (hfi : fi < F) : denseIdx F x y fi % F = fi := by
  unfold denseIdx
  have h : (y * DENSE_W + x) * F + fi = F * (y * DENSE_W + x) + fi := by ring
  rw [h, Nat.mul_add_mod, Nat.mod_eq_of_lt hfi]

theorem denseIdx_div (F x y fi : ℕ) (hfi : fi < F) :
    denseIdx F x y fi / F = y * DENSE_W + x := by
  unfold denseIdx
  have h : (y * DENSE_W + x) * F + fi = F * (y * DENSE_W + x) + fi := by ring
  rw [h, Nat.mul_add_div (by omega), Nat.div_eq_of_lt hfi, add_zero]

theorem pix_decode_x (x y : ℕ) (hx : x < DENSE_W) : (y * DENSE_W + x) % DENSE_W = x := by
  have h : y * DENSE_W + x = DENSE_W * y + x := by ring
  rw [h, Nat.mul_add_mod, Nat.mod_eq_of_lt hx]

theorem pix_decode_y (x y : ℕ) (hx : x < DENSE_W) : (y * DENSE_W + x) / DENSE_W = y := by
  have h : y * DENSE_W + x = DENSE_W * y + x := by ring
  rw [h, Nat.mul_add_div (by norm_num [DENSE_W]), Nat.div_eq_of_lt hx, add_zero]

theorem pix_lt (x y : ℕ) (hx : x < DENSE_W) (hy : y < DENSE_H) :
    y * DENSE_W + x < DENSE_W * DENSE_H := by
  simp only [DENSE_W, DENSE_H] at hx hy ⊢
  omega

theorem reindexChannels_at_old (oldFields newFields : List String) (arrOld base : Buf)
    (x y fi : ℕ) (n : String) (fiOld : ℕ)
    (hx : x < DENSE_W) (hy : y < DENSE_H) (hfi : fi < newFields.length)
    (hcn : channelName newFields fi = some n)
    (hold : indexGet oldFields n = some fiOld) :
    reindexChannels oldFields newFields arrOld base (denseIdx newFields.length x y fi)
      = arrOld ((y * DENSE_W + x) * oldFields.length + fiOld) := by
  unfold reindexChannels
  have hF : newFields.length ≠ 0 := by omega
  simp only [denseIdx_mod _ x y fi hfi, denseIdx_div _ x y fi hfi]
  simp [hF, pix_lt x y hx hy, hcn, hold]

theorem reindexChannels_at_none (oldFields newFields : List String) (arrOld base : Buf)
    (x y fi : ℕ) (n : String)
    (hx : x < DENSE_W) (hy : y < DENSE_H) (hfi : fi < newFields.length)
    (hcn : channelName newFields fi = some n)
    (hold : indexGet oldFields n = none) :
    reindexChannels oldFields newFields arrOld base (denseIdx newFields.length x y fi)
      = base (denseIdx newFields.length x y fi) := by
  unfold reindexChannels
  have hF : newFields.length ≠ 0 := by omega
  simp only [denseIdx_mod _ x y fi hfi, denseIdx_div _ x y fi hfi]
  simp [hF, pix_lt x y hx hy, hcn, hold]

theorem overlayQuadrants_at_some (count F : ℕ) (getQ : ℕ → Option Buf) (base : Buf)
    (x y fi : ℕ) (qb : Buf) (hx : x < DENSE_W) (hy : y < DENSE_H) (hfi : fi < F)
    (hqi : pixelQuadIndex count x y < count)
    (hget : getQ (pixelQuadIndex count x y) = some qb) :
    overlayQuadrants count F getQ base (denseIdx F x y fi)
      = qb (quadLocalIdx count F (pixelQuadIndex count x y) x y fi) := by
  unfold overlayQuadrants
  have hF : F ≠ 0 := by omega
  simp only [denseIdx_mod F x y fi hfi, denseIdx_div F x y fi hfi,
    pix_decode_x x y hx, pix_decode_y x y hx]
  simp [hF, hy, hqi, hget]

theorem quadChannelValue_zero (quad : List (String × ℚ)) (fields : List String) (fi : ℕ)
    (hz : ∀ p ∈ quad, p.2 = 0) : quadChannelValue quad fields fi = 0 := by
  unfold quadChannelValue
  cases hfind : quad.reverse.find? (fun p => indexGet fields p.1 == some fi) with
  | none => rfl
  | some p => exact hz p (List.mem_reverse.mp (List.mem_of_find?_eq_some hfind))

theorem createSparseQuadrants_values (count : ℕ) (envE : List (List (String × ℚ)))
    (i : ℕ) (q : List (String × ℚ))
    (hq : (createSparseQuadrants count envE).quadrants.get? i = some q) :
    ∀ p ∈ q, p.2 = 0 := by
  intro p hp
  simp only [createSparseQuadrants, List.get?_map] at hq
  cases hr : (List.range count).get? i with
  | none => rw [hr] at hq; simp at hq
  | some j =>
    rw [hr] at hq
    simp at hq
    rw [← hq] at hp
    simp only [List.mem_map] at hp
    obtain ⟨q2, _, hq2⟩ := hp
    rw [← hq2]

theorem denseFromQuadrants_createSparse (count : ℕ) (envE : List (List (String × ℚ)))
    (schema : Schema) (i : ℕ) :
    denseFromQuadrants (createSparseQuadrants count envE) schema i = 0 := by
  unfold denseFromQuadrants
  by_cases hF : schema.fieldNames.length = 0
  · simp [hF]
  · rw [if_neg hF]
    by_cases hq : (createSparseQuadrants count envE).quadrants.length = 0
    · simp [hq]
    · rw [if_neg hq]
      by_cases hylt : i / schema.fieldNames.length / DENSE_W < DENSE_H
      · rw [if_pos hylt]
        cases hget : (createSparseQuadrants count envE).quadrants.get?
            (pixelQuadIndex (createSparseQuadrants count envE).quadrants.length
              (i / schema.fieldNames.length % DENSE_W)
              (i / schema.fieldNames.length / DENSE_W)) with
        | none => simp [hget]
        | some quad =>
          simp only [hget]
          exact quadChannelValue_zero quad schema.fieldNames _
            (createSparseQuadrants_values count envE _ quad hget)
      · rw [if_neg hylt]

theorem ensureZeroTemplate_miss (s : GridState)
    (hbz : s.basezStore s.schema.id = none) :
    (ensureZeroTemplate s).1
      = createSparseQuadrants (effQuadrantCount s) s.envExpressions := by
  unfold ensureZeroTemplate
  by_cases hdb : s.db = false
  · rw [if_pos hdb]
  · rw [if_neg hdb, hbz]

theorem ensureDenseLayer_mismatch (s : GridState) (z : ℤ) (sid0 : ℕ)
    (oldFields : List String)
    (hmiss : s.layerCache z = none) (hdb : s.db = true)
    (hmeta : s.lmetaStore z = some (sid0, oldFields))
    (hne : oldFields ≠ s.schema.fieldNames) :
    (ensureDenseLayer s z).1
      = reindexChannels oldFields s.schema.fieldNames
          (overlayQuadrants (effQuadrantCount s) oldFields.length (s.layerQStore z) zeroBuf)
          (denseFromQuadrants (ensureZeroTemplate s).1 s.schema) := by
  have hae : arraysEqual oldFields s.schema.fieldNames = false := by
    rw [Bool.eq_false_iff]
    intro h
    exact hne ((arraysEqual_iff _ _).mp h)
  simp only [ensureDenseLayer, hmiss, hmeta, hdb]
  simp [hae]

theorem sampleDenseForCell_missing (t : GridState) (z x y : ℤ) (field : String)
    (hf : indexGet t.schema.fieldNames field = none) :
    (sampleDenseForCell t z x y field).1 = 0 := by
  simp [sampleDenseForCell, hf]

theorem pixelQuad16_lt (x y : ℕ) (hx : x < DENSE_W) (hy : y < DENSE_H) :
    pixelQuadIndex 16 x y < 16 := by
  have h := @pixelQuadIndex_lt_rows_cols 16 x y (by norm_num) hx hy
  have h16 : (quadrantSpec 16).rows * (quadrantSpec 16).cols = 16 := by
    norm_num [quadrantSpec, ceilSqrt, cdiv, DENSE_W, DENSE_H]
  rw [h16] at h
  exact h

/-- C2.  Materializing a layer whose stored metadata field list differs
from the current schema reindexes every pixel: a name held by both the
stored and the current schema keeps the value of the stored quadrant
slice (read at the old channel of the same pixel), a name only in the
current schema reads the zero template base, which is `0` (the template
for the current schema id carries only zero values), and a name dropped
from the schema is no longer addressable: `sampleDenseForCell` returns
`0` for it without touching the buffer.  Instantiated at
`[O2, CO2, H2O] → [O2, N2]` by the witness. -/
theorem claim_C2_schema_migration (s : GridState) (z : ℤ) (sid0 : ℕ)
    (oldFields : List String) (x y : ℕ)
    (hmiss : s.layerCache z = none) (hdb : s.db = true)
    (hmeta : s.lmetaStore z = some (sid0, oldFields))
    (hne : oldFields ≠ s.schema.fieldNames)
    (hx : x < DENSE_W) (hy : y < DENSE_H) :
    (∀ (n : String) (fi fiOld : ℕ) (qb : Buf),
        fi < s.schema.fieldNames.length → fiOld < oldFields.length →
        channelName s.schema.fieldNames fi = some n →
        indexGet oldFields n = some fiOld →
        pixelQuadIndex (effQuadrantCount s) x y < effQuadrantCount s →
        s.layerQStore z (pixelQuadIndex (effQuadrantCount s) x y) = some qb →
        (ensureDenseLayer s z).1 (denseIdx s.schema.fieldNames.length x y fi)
          = qb (quadLocalIdx (effQuadrantCount s) oldFields.length
              (pixelQuadIndex (effQuadrantCount s) x y) x y fiOld))
    ∧ (∀ (n : String) (fi : ℕ),
        fi < s.schema.fieldNames.length →
        channelName s.schema.fieldNames fi = some n →
        indexGet oldFields n = none →
        s.basezStore s.schema.id = none →
        (ensureDenseLayer s z).1 (denseIdx s.schema.fieldNames.length x y fi) = 0)
    ∧ (∀ (x2 y2 : ℤ) (n : String), indexGet s.schema.fieldNames n = none →
        (sampleDenseForCell s z x2 y2 n).1 = 0) := by
  refine ⟨?_, ?_, ?_⟩
  · intro n fi fiOld qb hfi hfiOld hcn hold hqi hget
    rw [ensureDenseLayer_mismatch s z sid0 oldFields hmiss hdb hmeta hne,
      reindexChannels_at_old oldFields s.schema.fieldNames _ _ x y fi n fiOld hx hy hfi
        hcn hold]
    have hidx : (y * DENSE_W + x) * oldFields.length + fiOld
        = denseIdx oldFields.length x y fiOld := rfl
    rw [hidx, overlayQuadrants_at_some (effQuadrantCount s) oldFields.length
      (s.layerQStore z) zeroBuf x y fiOld qb hx hy hfiOld hqi hget]
  · intro n fi hfi hcn hold hbz
    rw [ensureDenseLayer_mismatch s z sid0 oldFields hmiss hdb hmeta hne,
      reindexChannels_at_none oldFields s.schema.fieldNames _ _ x y fi n hx hy hfi hcn hold,
      ensureZeroTemplate_miss s hbz]
    exact denseFromQuadrants_createSparse _ _ _ _
  · intro x2 y2 n hn
    exact sampleDenseForCell_missing s z x2 y2 n hn

/-- Witness for `claim_C2_schema_migration`: with stored schema
`(1, [O2, CO2, H2O])` and current schema `(2, [O2, N2])`, at pixel
`(700, 300)` the O2 channel of the materialized layer reads the stored
quadrant value, the new N2 channel reads `0`, and sampling the dropped
CO2 field reads `0`. -/
theorem claim_C2_witness :
    (ensureDenseLayer migrationState 0).1 (denseIdx 2 700 300 0)
      = storedQuad (quadLocalIdx 16 3 (pixelQuadIndex 16 700 300) 700 300 0)
    ∧ (ensureDenseLayer migrationState 0).1 (denseIdx 2 700 300 1) = 0
    ∧ (sampleDenseForCell migrationState 0 2 2 "CO2").1 = 0 := by
  have H := claim_C2_schema_migration migrationState 0 1 ["O2", "CO2", "H2O"] 700 300
    rfl rfl rfl (by decide) (by decide) (by decide)
  exact ⟨H.1 "O2" 0 0 storedQuad (by decide) (by decide) (by decide) (by decide)
      (pixelQuad16_lt 700 300 (by decide) (by decide)) rfl,
    H.2.1 "N2" 1 (by decide) (by decide) (by decide) rfl,
    H.2.2 2 2 "CO2" (by decide)⟩

end SDFGrid
